import Mathlib

/-!
# Interview room: posture feedback, sampling loop and countdown

A shallow embedding of `src/src/pages/InterviewRoom.tsx` and of the history
preparation of `POST /analyze-answer` in `src/server/index.js`.

Modelling conventions.
* A JavaScript number that carries a pixel coordinate, the normalised nose
  position or the detection score is a finite IEEE 754 double, given by the
  rational it denotes (`ℚ`).  An arithmetic operation is the exact operation
  followed by `roundDouble`, rounding to the nearest double with ties to even; a
  decimal literal such as `0.30` is `roundDouble (3 / 10)`.  The literals `20` and
  `0.5` are doubles already.  `NaN` and infinite inputs are outside the model, and
  a result beyond the double range is left unrounded: against the finite
  thresholds of the code it compares as `Infinity` does.
* The five counters of `feedbackRef.current` are natural numbers (a counter
  stays far below `2^53` in any session, so `++` is exact).
* `keypoints[i]` on a JavaScript array yields `undefined` when the index is out
  of range or the slot is empty; a keypoint array is a list of optional
  keypoints and `kpAt` is the indexing operation.
* Reading a property of `undefined` throws a `TypeError`.  The writes made to
  `feedbackRef.current` before the throw persist, so `analysePosture` returns
  the feedback state together with a flag telling whether it threw.
-/

namespace InterviewRoom

/-- The object held by `feedbackRef.current` (lines 45-51). -/
structure Feedback where
  shoulder_level : Nat
  lookLeftCount : Nat
  lookRightCount : Nat
  sitStraight : Nat
  totalFrames : Nat
  deriving DecidableEq, Repr

/-- The initial value of `feedbackRef.current`: every counter is zero. -/
def Feedback.zero : Feedback :=
  { shoulder_level := 0, lookLeftCount := 0, lookRightCount := 0,
    sitStraight := 0, totalFrames := 0 }

/-- One keypoint of a detected pose: its position in frame pixels, two finite
doubles given by the rationals they denote. -/
structure Keypoint where
  x : ℚ
  y : ℚ
  deriving DecidableEq

/-- The part of the `HTMLVideoElement` the component reads. -/
structure VideoElement where
  readyState : Nat
  videoWidth : Nat
  deriving DecidableEq

/-- One entry of the array returned by `estimatePoses`. -/
structure Pose where
  keypoints : List (Option Keypoint)
  score : ℚ
  deriving DecidableEq

/-- JavaScript `keypoints[i]`: `undefined` (here `none`) when the index is out of
range or the slot holds no keypoint. -/
def kpAt (keypoints : List (Option Keypoint)) (i : Nat) : Option Keypoint :=
  (keypoints.get? i).bind id

/-- The expression `videoRef.current?.videoWidth || 1` (line 102): a missing video
element and a width of `0` both fall back to `1`. -/
def videoWidthOr1 (videoRef : Option VideoElement) : Nat :=
  match videoRef with
  | none => 1
  | some v => if v.videoWidth = 0 then 1 else v.videoWidth

/-- The integer nearest to `q`, the even one of the two when `q` lies half-way. -/
def roundHalfEven (q : ℚ) : ℤ :=
  let f := ⌊q⌋
  let r := q - f
  if r < 1 / 2 then f else if 1 / 2 < r then f + 1 else if f % 2 = 0 then f else f + 1

/-- The exponent of the spacing of the doubles around `q`: 52 binary places below
the leading bit of `q`, and never below the spacing `2 ^ (-1074)` of the
subnormal doubles. -/
def ulpExponent (q : ℚ) : ℤ :=
  max (Int.log 2 |q| - 52) (-1074)

/-- IEEE 754 binary64 rounding to nearest, ties to even: the double a JavaScript
operation stores when its exact result is `q`. -/
def roundDouble (q : ℚ) : ℚ :=
  (roundHalfEven (q / 2 ^ ulpExponent q) : ℚ) * 2 ^ ulpExponent q

/-- The value `nose.x / videoWidth` of line 105: a double division. -/
def normalizedNoseX (videoRef : Option VideoElement) (nose : Keypoint) : ℚ :=
  roundDouble (nose.x / (videoWidthOr1 videoRef : ℚ))

/-- The value `Math.abs(leftShoulder.y - rightShoulder.y)` of line 110: a double
subtraction, then the exact absolute value. -/
def shoulderSlope (leftShoulder rightShoulder : Keypoint) : ℚ :=
  |roundDouble (leftShoulder.y - rightShoulder.y)|

/-- Lines 107-108: the two gaze counters, updated from the normalised nose x by
comparison with the doubles written `0.30` and `0.70`. -/
def bumpLook (n : ℚ) (fb : Feedback) : Feedback :=
  let fb1 :=
    if n < roundDouble (3 / 10) then { fb with lookLeftCount := fb.lookLeftCount + 1 }
    else fb
  if n > roundDouble (7 / 10) then { fb1 with lookRightCount := fb1.lookRightCount + 1 }
  else fb1

/-- Lines 111-113: the shoulder-tilt counter and the off-centre counter, the
latter by comparison with the doubles written `0.40` and `0.60`. -/
def bumpPosture (n slope : ℚ) (fb : Feedback) : Feedback :=
  let fb1 := if slope > 20 then { fb with shoulder_level := fb.shoulder_level + 1 } else fb
  if n < roundDouble (2 / 5) ∨ n > roundDouble (3 / 5) ∨ slope > 20 then
    { fb1 with sitStraight := fb1.sitStraight + 1 }
  else fb1

/-- The function `analysePosture` (lines 98-114).  The result is the feedback
state after the call and `true` when the call threw a `TypeError`.

`totalFrames++` (line 104) runs before the first property read of a keypoint,
`nose.x` (line 105); the shoulders are first read on line 110, after the two
gaze updates. -/
def analysePosture (videoRef : Option VideoElement) (keypoints : List (Option Keypoint))
    (fb : Feedback) : Feedback × Bool :=
  let nose := kpAt keypoints 0
  let leftShoulder := kpAt keypoints 5
  let rightShoulder := kpAt keypoints 6
  let fb1 := { fb with totalFrames := fb.totalFrames + 1 }
  match nose with
  | none => (fb1, true)
  | some nose =>
    let n := normalizedNoseX videoRef nose
    let fb2 := bumpLook n fb1
    match leftShoulder, rightShoulder with
    | some l, some r => (bumpPosture n (shoulderSlope l r) fb2, false)
    | _, _ => (fb2, true)

/-- A keypoint array is accepted when nose, left shoulder and right shoulder are
all present. -/
def hasRequired (keypoints : List (Option Keypoint)) : Bool :=
  (kpAt keypoints 0).isSome && (kpAt keypoints 5).isSome && (kpAt keypoints 6).isSome

/-- One call of `analysePosture` as seen by its caller's state: the video element
current at the time of the call and the keypoints passed. -/
structure Sample where
  videoRef : Option VideoElement
  keypoints : List (Option Keypoint)

/-- Feed the samples one by one to `analysePosture`, threading the feedback
state; a throwing call keeps the writes it made. -/
def feedAll (samples : List Sample) (fb : Feedback) : Feedback :=
  samples.foldl (fun acc s => (analysePosture s.videoRef s.keypoints acc).1) fb

/-- A keypoint array of the MoveNet shape (17 slots) with the given nose and
shoulders and all other landmarks at the origin. -/
def mkKeypoints (nose l r : Keypoint) : List (Option Keypoint) :=
  [some nose, some ⟨0, 0⟩, some ⟨0, 0⟩, some ⟨0, 0⟩, some ⟨0, 0⟩, some l, some r,
   some ⟨0, 0⟩, some ⟨0, 0⟩, some ⟨0, 0⟩, some ⟨0, 0⟩, some ⟨0, 0⟩, some ⟨0, 0⟩,
   some ⟨0, 0⟩, some ⟨0, 0⟩, some ⟨0, 0⟩, some ⟨0, 0⟩]

/-! ## The component state: sampling loop, countdown and session end -/

/-- The mutable state of one mounted `InterviewRoom` that the sampling loop, the
countdown and the end of the session read and write.

* `secondsRemaining`, `feedbackRef`, `videoRef`: the state variable and the refs
  of the same names (`detectorRef` and `loopRef` record whether `.current` is set).
* `loopRunning`: the interval stored in `loopRef.current` has not been cleared.
* `timerRunning`: the countdown interval `timer` (line 147) has not been cleared.
* `loadPending`: `loadModel()` (line 92) has not yet come back from its awaits.
* `inFlight`: the number of sampling callbacks suspended at
  `await estimatePoses` (line 84).
* `navigated`: the feedback values passed to `navigate("/profile", ...)`, most
  recent first, as they were at the time of the call. -/
structure Session where
  secondsRemaining : Int
  feedbackRef : Feedback
  videoRef : Option VideoElement
  detectorRef : Bool
  loopRef : Bool
  loopRunning : Bool
  timerRunning : Bool
  loadPending : Bool
  inFlight : Nat
  navigated : List Feedback
  deriving DecidableEq

/-- The state right after mount: the countdown effect has started its interval,
`loadModel()` is pending and nothing has been sampled. -/
def Session.init (seconds : Int) (video : Option VideoElement) : Session :=
  { secondsRemaining := seconds, feedbackRef := Feedback.zero, videoRef := video,
    detectorRef := false, loopRef := false, loopRunning := false, timerRunning := true,
    loadPending := true, inFlight := 0, navigated := [] }

/-- The statement `if (loopRef.current) clearInterval(loopRef.current)`
(lines 65, 94 and 151). -/
def clearLoop (s : Session) : Session :=
  if s.loopRef then { s with loopRunning := false } else s

/-- The call `navigate("/profile", { state: { feedback: feedbackRef.current } })`
(lines 66 and 152). -/
def navigate (s : Session) : Session :=
  { s with navigated := s.feedbackRef :: s.navigated }

/-- The function `handleEndInterview` (lines 64-67). -/
def handleEndInterview (s : Session) : Session :=
  navigate (clearLoop s)

/-- The function `startAnalysisLoop` (lines 81-90): it stores a fresh interval in
`loopRef.current`. -/
def startAnalysisLoop (s : Session) : Session :=
  { s with loopRef := true, loopRunning := true }

/-- The tail of `loadModel` (lines 76-78), run once when its awaits complete. -/
def modelLoaded (s : Session) : Session :=
  if s.loadPending then startAnalysisLoop { s with loadPending := false, detectorRef := true }
  else s

/-- The guard of line 83:
`videoRef.current && videoRef.current.readyState === 4 && detectorRef.current`. -/
def samplingGuard (s : Session) : Bool :=
  (match s.videoRef with
   | none => false
   | some v => decide (v.readyState = 4)) && s.detectorRef

/-- Lines 85-87, run with the array `poses` that `estimatePoses` resolved to:
`if (poses.length > 0 && poses[0].score > 0.5) analysePosture(poses[0].keypoints)`.
A `TypeError` thrown by `analysePosture` rejects the callback's promise; the
writes made before it stay. -/
def afterEstimate (poses : List Pose) (s : Session) : Session :=
  match poses with
  | [] => s
  | p :: _ =>
    if p.score > 1 / 2 then
      { s with feedbackRef := (analysePosture s.videoRef p.keypoints s.feedbackRef).1 }
    else s

/-- The sampling callback of lines 82-89 as one step, `poses` being the value the
`await` produced. -/
def samplingCallback (poses : List Pose) (s : Session) : Session :=
  if samplingGuard s then afterEstimate poses s else s

/-- The sampling interval fires: the callback runs up to its `await` (lines 83-84).
A cleared interval does not fire. -/
def loopFire (s : Session) : Session :=
  if s.loopRunning && samplingGuard s then { s with inFlight := s.inFlight + 1 } else s

/-- A suspended sampling callback resumes with the resolved `poses` (lines 85-87). -/
def posesResolved (poses : List Pose) (s : Session) : Session :=
  if s.inFlight = 0 then s else afterEstimate poses { s with inFlight := s.inFlight - 1 }

/-- One firing of the countdown interval (lines 147-157): the updater passed to
`setSecondsRemaining`, applied to the current value.  A cleared interval does not
fire. -/
def countdownTick (s : Session) : Session :=
  if s.timerRunning then
    if s.secondsRemaining ≤ 1 then
      { navigate (clearLoop { s with timerRunning := false }) with secondsRemaining := 0 }
    else { s with secondsRemaining := s.secondsRemaining - 1 }
  else s

/-- The effect clean-ups of lines 93-95 and 158. -/
def unmount (s : Session) : Session :=
  { clearLoop s with timerRunning := false }

/-- What can happen to a mounted component, one at a time (the event loop runs one
callback at a time). -/
inductive Event where
  | modelLoaded
  | loopFire
  | posesResolved (poses : List Pose)
  | countdownTick
  | endInterview
  | unmount
  | setVideo (video : Option VideoElement)
  deriving DecidableEq

/-- The effect of one event. -/
def step (e : Event) (s : Session) : Session :=
  match e with
  | .modelLoaded => modelLoaded s
  | .loopFire => loopFire s
  | .posesResolved poses => posesResolved poses s
  | .countdownTick => countdownTick s
  | .endInterview => handleEndInterview s
  | .unmount => unmount s
  | .setVideo video => { s with videoRef := video }

/-- The effect of a sequence of events, in order. -/
def run (events : List Event) (s : Session) : Session :=
  events.foldl (fun acc e => step e acc) s

/-- The state after `k` firings of the countdown interval. -/
def ticks (k : Nat) (s : Session) : Session :=
  Nat.iterate countdownTick k s

/-! ## Concrete samples used below -/

/-- A 640-pixel-wide video element that has enough data (`readyState === 4`). -/
def video640 : VideoElement := { readyState := 4, videoWidth := 640 }

/-- Nose at x = 100, level shoulders. -/
def kpsLeft : List (Option Keypoint) := mkKeypoints ⟨100, 80⟩ ⟨400, 100⟩ ⟨240, 100⟩

/-- Nose at x = 320 (the middle of a 640-wide frame), level shoulders at y = 100. -/
def kpsCentre : List (Option Keypoint) := mkKeypoints ⟨320, 80⟩ ⟨400, 100⟩ ⟨240, 100⟩

/-- Nose at x = 320, left shoulder at y = 100, right shoulder at y = 125. -/
def kpsTilt : List (Option Keypoint) := mkKeypoints ⟨320, 80⟩ ⟨400, 100⟩ ⟨240, 125⟩

/-- Three accepted samples. -/
def threeSamples : List Sample :=
  [⟨some video640, kpsLeft⟩, ⟨some video640, kpsCentre⟩, ⟨none, kpsTilt⟩]

/-- A session whose model has loaded and whose sampling loop runs on a ready
640-wide video. -/
def readySession : Session :=
  { Session.init 5 (some video640) with
    detectorRef := true, loopRef := true, loopRunning := true, loadPending := false }

/-- A complete, centred pose detected with a score of exactly 0.5. -/
def poseHalf : Pose := { keypoints := kpsCentre, score := 1 / 2 }

/-- A complete, centred pose detected with a score of 0.9. -/
def poseGood : Pose := { keypoints := kpsCentre, score := 9 / 10 }

/-- A 1024-pixel-wide video element. -/
def video1024 : VideoElement := { readyState := 4, videoWidth := 1024 }

/-- A 1366-pixel-wide video element. -/
def video1366 : VideoElement := { readyState := 4, videoWidth := 1366 }

/-- The double written `307.2`, the value `0x1.3333333333333p+8`. -/
def x307 : ℚ := 5404319552844595 / 17592186044416

/-- The double written `819.6`, the value `0x1.99ccccccccccdp+9`. -/
def x819 : ℚ := 7209277841001677 / 8796093022208

/-- The double written `20.1`, the value `0x1.419999999999ap+4`. -/
def y20 : ℚ := 2828823515942093 / 140737488355328

/-- The double written `0.1`, the value `0x1.999999999999ap-4`. -/
def y01 : ℚ := 3602879701896397 / 36028797018963968

/-- Nose at x = 307.2 (for a 1024-wide frame), level shoulders. -/
def kpsNear030 : List (Option Keypoint) := mkKeypoints ⟨x307, 80⟩ ⟨400, 100⟩ ⟨240, 100⟩

/-- Nose at x = 819.6 (for a 1366-wide frame), level shoulders. -/
def kpsNear060 : List (Option Keypoint) := mkKeypoints ⟨x819, 80⟩ ⟨900, 100⟩ ⟨700, 100⟩

/-- Nose at x = 320, left shoulder at y = 20.1, right shoulder at y = 0.1. -/
def kpsNearTilt : List (Option Keypoint) := mkKeypoints ⟨320, 80⟩ ⟨400, y20⟩ ⟨240, y01⟩

/-- A keypoint array that stops after the left shoulder: index 6 is out of range. -/
def kpsNoRightShoulder : List (Option Keypoint) := kpsLeft.take 6

/-- Whether an event is a run of `handleEndInterview`. -/
def isManualEnd : Event → Bool
  | .endInterview => true
  | _ => false

/-- The number of runs of `handleEndInterview` in a sequence of events. -/
def manualEnds (events : List Event) : Nat :=
  (events.filter isManualEnd).length

/-! ## Streaming the assistant reply (`askAI`, lines 182-225) -/

/-- The `role` of a conversation entry (lines 21-24). -/
inductive Role where
  | user
  | assistant
  deriving DecidableEq

/-- One entry of the `conversation` state (interface `Message`, lines 21-24). -/
structure Message where
  role : Role
  content : String
  deriving DecidableEq

/-- One thing that happens to the `conversation` state between the placeholder of
an `askAI` call and its return.  The loop awaits every chunk, so other handlers
run in between.

* `chunk content`: the loop body runs for the next chunk of this call's stream;
  `content` is the value of `chunk.choices[0]?.delta?.content` (`none` when that
  is `undefined` or `null`).
* `failure`: the stream throws.
* `appended entry`: another handler runs `setConversation((prev) => [...prev, entry])`
  (`handleUserInput`, line 231; `handleSubmit`, lines 272-275; the placeholder of
  another `askAI` call, lines 197-200).
* `replaced entry`: the loop of another `askAI` call runs its updater
  (lines 209-216). -/
inductive StreamStep where
  | chunk (content : Option String)
  | failure
  | appended (entry : Message)
  | replaced (entry : Message)
  deriving DecidableEq

/-- The updater of lines 209-216: copy `prev` and assign the new entry at index
`length - 1`.  On an empty array the assignment sets the property `-1`, which is
not an element. -/
def replaceLast (prev : List Message) (entry : Message) : List Message :=
  match prev with
  | [] => []
  | _ :: _ => prev.dropLast ++ [entry]

/-- The `for await` loop of lines 202-218 followed by `return fullResponse`
(line 220), threading the local `fullResponse` and the shared `conversation`
state through the steps in the order in which they happen.  `if (content)` skips
a missing and an empty fragment; an exception leads to the `catch` block
(lines 221-224). -/
def consumeStream : List StreamStep → String → List Message → List Message × String
  | [], fullResponse, conversation => (conversation, fullResponse)
  | .failure :: _, _, conversation => (conversation, "Failed to reach OpenRouter.")
  | .chunk content :: rest, fullResponse, conversation =>
    match content with
    | none => consumeStream rest fullResponse conversation
    | some text =>
      if text = "" then consumeStream rest fullResponse conversation
      else
        consumeStream rest (fullResponse ++ text)
          (replaceLast conversation { role := .assistant, content := fullResponse ++ text })
  | .appended entry :: rest, fullResponse, conversation =>
    consumeStream rest fullResponse (conversation ++ [entry])
  | .replaced entry :: rest, fullResponse, conversation =>
    consumeStream rest fullResponse (replaceLast conversation entry)

/-- The function `askAI` (lines 182-225) as a transformer of the `conversation`
state that also gives the returned string: `conversation` is the state when the
placeholder is appended (lines 197-200), `steps` is what happens from then on.
`sendOk` tells whether `openrouter.chat.send` resolved; the request it sends is
not part of the model. -/
def askAI (sendOk : Bool) (steps : List StreamStep) (conversation : List Message) :
    List Message × String :=
  if sendOk then
    consumeStream steps "" (conversation ++ [{ role := .assistant, content := "" }])
  else (conversation, "Failed to reach OpenRouter.")

/-- The concatenation of the fragments in arrival order, a missing fragment
contributing nothing. -/
def concatFragments (fragments : List (Option String)) : String :=
  String.join (fragments.map (fun f => f.getD ""))

/-! ## History preparation of `POST /analyze-answer` (`src/server/index.js`) -/

/-- A value of a parsed JSON body, with `undefined` for what an absent property or
an out-of-range index yields. -/
inductive JsValue where
  | undefined
  | null
  | bool (b : Bool)
  | num (n : Int)
  | str (s : String)
  | array (items : List JsValue)
  | object (fields : List (String × JsValue))

/-- One element of `req.body.messages`: its `role` and `content` properties. -/
structure RawMessage where
  role : JsValue
  content : JsValue

/-- The role of a history entry handed to `startChat`. -/
inductive GeminiRole where
  | model
  | user
  deriving DecidableEq

/-- A history entry `{ role, parts: [{ text }] }` (lines 42-46). -/
structure HistoryEntry where
  role : GeminiRole
  text : JsValue

/-- The helper `extractText` (lines 28-35): element 0 of an array, anything else
as it is. -/
def extractText : JsValue → JsValue
  | .array items => items.headD .undefined
  | content => content

/-- The test `msg.role === "assistant"` (line 44). -/
def isAssistant : JsValue → Bool
  | .str s => s == "assistant"
  | _ => false

/-- The mapping of lines 42-46. -/
def toHistoryEntry (msg : RawMessage) : HistoryEntry :=
  { role := if isAssistant msg.role then .model else .user,
    text := extractText msg.content }

/-- The loop of lines 48-50:
`while (history.length > 0 && history[0].role === "model") history.shift()`.
Each iteration removes the first entry, so the recursion is on the list itself. -/
def stripLeadingModel : List HistoryEntry → List HistoryEntry
  | [] => []
  | first :: rest => if first.role = .model then stripLeadingModel rest else first :: rest

/-- Lines 20-53 of the handler: the status of an early error answer, or the
history given to `startChat` and the prompt given to `sendMessage`.  A missing
`messages` property is `none`.  Reading `.content` of an `undefined` last message
would throw and end in the `catch` block (status 500). -/
def prepareChat (rawMessages : Option (List RawMessage)) :
    Except Nat (List HistoryEntry × JsValue) :=
  match rawMessages with
  | none => .error 400
  | some messages =>
    if messages.length = 0 then .error 400
    else
      let history :=
        if messages.length > 1 then messages.dropLast.map toHistoryEntry else []
      let history := stripLeadingModel history
      match messages.getLast? with
      | none => .error 500
      | some lastMessage => .ok (history, extractText lastMessage.content)

/-- The history as the claim words it: all messages but the last, mapped in order,
without the leading run of `model` entries. -/
def historySpec (messages : List RawMessage) : List HistoryEntry :=
  (messages.dropLast.map toHistoryEntry).dropWhile (fun e => decide (e.role = .model))

/-- A conversation of the greeting and one user turn. -/
def chatHistory : List Message :=
  [{ role := .assistant, content := "Hello" },
   { role := .user, content := "q" }]

/-- The user entry `handleSubmit` appends (lines 272-275). -/
def submittedCode : Message := { role := .user, content := "Here is my code: x=1" }

/-- A request body of three messages: an assistant greeting, a user turn whose
content is an array, and the user turn to answer. -/
def sampleMessages : List RawMessage :=
  [{ role := .str "assistant", content := .str "Hello" },
   { role := .str "user", content := .array [.str "Hi", .object []] },
   { role := .str "user", content := .str "What is a closure?" }]

/-! ## The timer display (`formatTimer`, lines 56-60) -/

/-- The template part `${n < 10 ? "0" + n : n}` of line 59, used for the minutes
and for the seconds; the number is converted to its decimal string, which is what
JavaScript does for the integers a timer holds (`/`, `%` and the conversion are
exact far beyond any session length). -/
def padTwo (n : Nat) : String :=
  if n < 10 then "0" ++ toString n else toString n

/-- The function `formatTimer` (lines 56-60) on a non-negative integer. -/
def formatTimer (totalSeconds : Nat) : String :=
  let min := totalSeconds / 60
  let sec := totalSeconds % 60
  padTwo min ++ ":" ++ padTwo sec

/-- The value of a decimal digit character. -/
def digitValue (c : Char) : Nat :=
  c.toNat - 48

/-- The number a list of decimal digits denotes, most significant digit first. -/
def readDecimal (cs : List Char) : Nat :=
  cs.foldl (fun acc c => 10 * acc + digitValue c) 0

/-- Reading a display `MM:SS` back as `60 · MM + SS`: the text before the first
colon and the text after it, both made of decimal digits. -/
def readTimer (s : String) : Option Nat :=
  let mm := s.data.takeWhile (fun c => c != ':')
  match s.data.dropWhile (fun c => c != ':') with
  | [] => none
  | _ :: ss =>
    if mm.all Char.isDigit && ss.all Char.isDigit then
      some (60 * readDecimal mm + readDecimal ss)
    else none

/-! ## The doubles the code compares with -/

/-- The literal `0.30` is a double slightly below three tenths. -/
theorem double_030 : roundDouble (3 / 10) = 5404319552844595 / 18014398509481984 := by
  decide!

/-- The literal `0.70` is a double slightly below seven tenths. -/
theorem double_070 : roundDouble (7 / 10) = 3152519739159347 / 4503599627370496 := by
  decide!

/-- The literal `0.40` is a double slightly above two fifths. -/
theorem double_040 : roundDouble (2 / 5) = 3602879701896397 / 9007199254740992 := by
  decide!

/-- The literal `0.60` is a double slightly below three fifths. -/
theorem double_060 : roundDouble (3 / 5) = 5404319552844595 / 9007199254740992 := by
  decide!

theorem double_030_lt_070 : roundDouble (3 / 10) < roundDouble (7 / 10) := by
  decide!

/-- One half is a double, between the doubles written `0.40` and `0.60`. -/
theorem double_half :
    roundDouble (1 / 2) = 1 / 2 ∧
    ¬ roundDouble (1 / 2) < roundDouble (3 / 10) ∧
    ¬ roundDouble (1 / 2) > roundDouble (7 / 10) ∧
    ¬ roundDouble (1 / 2) < roundDouble (2 / 5) ∧
    ¬ roundDouble (1 / 2) > roundDouble (3 / 5) := by
  decide!

/-- The shoulder differences of the two scenarios. -/
theorem double_shoulder_scenarios :
    ¬ |roundDouble ((100 : ℚ) - 100)| > 20 ∧ |roundDouble ((100 : ℚ) - 125)| > 20 := by
  decide!

/-! ## Lemmas on one `analysePosture` call -/

theorem bumpLook_fields (n : ℚ) (fb : Feedback) :
    (bumpLook n fb).totalFrames = fb.totalFrames ∧
    (bumpLook n fb).shoulder_level = fb.shoulder_level ∧
    (bumpLook n fb).sitStraight = fb.sitStraight ∧
    (bumpLook n fb).lookLeftCount
      = fb.lookLeftCount + (if n < roundDouble (3 / 10) then 1 else 0) ∧
    (bumpLook n fb).lookRightCount
      = fb.lookRightCount + (if n > roundDouble (7 / 10) then 1 else 0) := by
  unfold bumpLook
  by_cases h1 : n < roundDouble (3 / 10) <;> by_cases h2 : n > roundDouble (7 / 10) <;>
    simp only [if_pos, if_neg, h1, h2, not_false_eq_true, Nat.add_zero, and_self]

theorem bumpPosture_fields (n slope : ℚ) (fb : Feedback) :
    (bumpPosture n slope fb).totalFrames = fb.totalFrames ∧
    (bumpPosture n slope fb).lookLeftCount = fb.lookLeftCount ∧
    (bumpPosture n slope fb).lookRightCount = fb.lookRightCount ∧
    (bumpPosture n slope fb).shoulder_level
      = fb.shoulder_level + (if slope > 20 then 1 else 0) ∧
    (bumpPosture n slope fb).sitStraight
      = fb.sitStraight
        + (if n < roundDouble (2 / 5) ∨ n > roundDouble (3 / 5) ∨ slope > 20 then 1 else 0) := by
  unfold bumpPosture
  by_cases h1 : slope > 20
  · have h2 : n < roundDouble (2 / 5) ∨ n > roundDouble (3 / 5) ∨ slope > 20 :=
      Or.inr (Or.inr h1)
    simp only [if_pos h1, if_pos h2, and_self]
  · by_cases h2 : n < roundDouble (2 / 5) ∨ n > roundDouble (3 / 5) ∨ slope > 20
    · simp only [if_neg h1, if_pos h2, Nat.add_zero, and_self]
    · simp only [if_neg h1, if_neg h2, Nat.add_zero, and_self]

/-- With the three required keypoints present the call runs to its end. -/
theorem analysePosture_accepted (videoRef : Option VideoElement)
    (keypoints : List (Option Keypoint)) (fb : Feedback) (nose l r : Keypoint)
    (hn : kpAt keypoints 0 = some nose) (hl : kpAt keypoints 5 = some l)
    (hr : kpAt keypoints 6 = some r) :
    analysePosture videoRef keypoints fb
      = (bumpPosture (normalizedNoseX videoRef nose) (shoulderSlope l r)
          (bumpLook (normalizedNoseX videoRef nose)
            { fb with totalFrames := fb.totalFrames + 1 }), false) := by
  simp [analysePosture, hn, hl, hr]

theorem hasRequired_iff (keypoints : List (Option Keypoint)) :
    hasRequired keypoints = true ↔
      ∃ nose l r, kpAt keypoints 0 = some nose ∧ kpAt keypoints 5 = some l ∧
        kpAt keypoints 6 = some r := by
  unfold hasRequired
  cases h0 : kpAt keypoints 0 <;> cases h5 : kpAt keypoints 5 <;>
    cases h6 : kpAt keypoints 6 <;> simp

/-- Every call, throwing or not, adds exactly one to `totalFrames`. -/
theorem analysePosture_totalFrames (videoRef : Option VideoElement)
    (keypoints : List (Option Keypoint)) (fb : Feedback) :
    (analysePosture videoRef keypoints fb).1.totalFrames = fb.totalFrames + 1 := by
  unfold analysePosture
  cases kpAt keypoints 0 with
  | none => simp
  | some nose =>
    cases kpAt keypoints 5 <;> cases kpAt keypoints 6 <;>
      simp [(bumpLook_fields _ _).1, (bumpPosture_fields _ _ _).1]

/-- Every call, throwing or not, moves each signal counter by zero or one, and the
two gaze counters together by at most one. -/
theorem analysePosture_bounds (videoRef : Option VideoElement)
    (keypoints : List (Option Keypoint)) (fb : Feedback) :
    (analysePosture videoRef keypoints fb).1.lookLeftCount ≤ fb.lookLeftCount + 1 ∧
    (analysePosture videoRef keypoints fb).1.lookRightCount ≤ fb.lookRightCount + 1 ∧
    (analysePosture videoRef keypoints fb).1.shoulder_level ≤ fb.shoulder_level + 1 ∧
    (analysePosture videoRef keypoints fb).1.sitStraight ≤ fb.sitStraight + 1 ∧
    (analysePosture videoRef keypoints fb).1.lookLeftCount
        + (analysePosture videoRef keypoints fb).1.lookRightCount
      ≤ fb.lookLeftCount + fb.lookRightCount + 1 ∧
    fb.lookLeftCount ≤ (analysePosture videoRef keypoints fb).1.lookLeftCount ∧
    fb.lookRightCount ≤ (analysePosture videoRef keypoints fb).1.lookRightCount := by
  have look : ∀ n : ℚ, (if n < roundDouble (3 / 10) then 1 else 0)
      + (if n > roundDouble (7 / 10) then 1 else 0) ≤ 1 := by
    intro n
    by_cases h1 : n < roundDouble (3 / 10)
    · have h2 : ¬ n > roundDouble (7 / 10) := by
        intro h2
        exact absurd (lt_trans h2 h1) (not_lt.2 (le_of_lt double_030_lt_070))
      rw [if_pos h1, if_neg h2]
    · rw [if_neg h1]
      split_ifs <;> omega
  unfold analysePosture
  cases kpAt keypoints 0 with
  | none => simp
  | some nose =>
    obtain ⟨_, b2, b3, b4, b5⟩ := bumpLook_fields (normalizedNoseX videoRef nose)
      { fb with totalFrames := fb.totalFrames + 1 }
    have hk := look (normalizedNoseX videoRef nose)
    cases kpAt keypoints 5 with
    | none =>
      simp only [b2, b3, b4, b5]
      refine ⟨?_, ?_, ?_, ?_, ?_, ?_, ?_⟩ <;> (try split_ifs) <;> (try split_ifs at hk) <;>
        omega
    | some l =>
      cases kpAt keypoints 6 with
      | none =>
        simp only [b2, b3, b4, b5]
        refine ⟨?_, ?_, ?_, ?_, ?_, ?_, ?_⟩ <;> (try split_ifs) <;> (try split_ifs at hk) <;>
          omega
      | some r =>
        obtain ⟨_, c2, c3, c4, c5⟩ := bumpPosture_fields (normalizedNoseX videoRef nose)
          (shoulderSlope l r)
          (bumpLook (normalizedNoseX videoRef nose)
            { fb with totalFrames := fb.totalFrames + 1 })
        simp only [c2, c3, c4, c5, b2, b3, b4, b5]
        refine ⟨?_, ?_, ?_, ?_, ?_, ?_, ?_⟩ <;> (try split_ifs) <;> (try split_ifs at hk) <;>
          omega

theorem feedAll_nil (fb : Feedback) : feedAll [] fb = fb := rfl

theorem feedAll_cons (s : Sample) (rest : List Sample) (fb : Feedback) :
    feedAll (s :: rest) fb = feedAll rest (analysePosture s.videoRef s.keypoints fb).1 := rfl

theorem feedAll_append_one (samples : List Sample) (s : Sample) (fb : Feedback) :
    feedAll (samples ++ [s]) fb
      = (analysePosture s.videoRef s.keypoints (feedAll samples fb)).1 := by
  simp [feedAll, List.foldl_append]

theorem feedAll_totalFrames (samples : List Sample) (fb : Feedback) :
    (feedAll samples fb).totalFrames = fb.totalFrames + samples.length := by
  induction samples generalizing fb with
  | nil => simp [feedAll_nil]
  | cons s rest ih =>
    rw [feedAll_cons, ih, analysePosture_totalFrames, List.length_cons]
    omega

/-! ## Claims on the posture counters -/

/-- C1: feeding N accepted samples (nose and both shoulders present, any values,
any video state) one by one to `analysePosture`, starting from the all-zero
feedback state, leaves `totalFrames` equal to N; none of these calls throws. -/
theorem C1_totalFrames_counts_accepted (samples : List Sample)
    (h : ∀ s ∈ samples, hasRequired s.keypoints = true) :
    (feedAll samples Feedback.zero).totalFrames = samples.length ∧
      ∀ s ∈ samples, ∀ fb, (analysePosture s.videoRef s.keypoints fb).2 = false := by
  refine ⟨?_, ?_⟩
  · have := feedAll_totalFrames samples Feedback.zero
    simpa [Feedback.zero] using this
  · intro s hs fb
    obtain ⟨nose, l, r, hn, hl, hr⟩ := (hasRequired_iff s.keypoints).1 (h s hs)
    rw [analysePosture_accepted s.videoRef s.keypoints fb nose l r hn hl hr]

/-- Three accepted samples, one of them taken while no video element is mounted. -/
theorem C1_witness :
    (∀ s ∈ threeSamples, hasRequired s.keypoints = true) ∧
      (feedAll threeSamples Feedback.zero).totalFrames = threeSamples.length :=
  ⟨by decide, (C1_totalFrames_counts_accepted threeSamples (by decide)).1⟩

/-- C2: in every feedback state reached from the all-zero state by any number of
`analysePosture` calls (throwing calls included), each of `lookLeftCount`,
`lookRightCount`, `shoulder_level` and `sitStraight` is at most `totalFrames`. -/
theorem C2_counters_le_totalFrames (samples : List Sample) :
    (feedAll samples Feedback.zero).lookLeftCount
        ≤ (feedAll samples Feedback.zero).totalFrames ∧
    (feedAll samples Feedback.zero).lookRightCount
        ≤ (feedAll samples Feedback.zero).totalFrames ∧
    (feedAll samples Feedback.zero).shoulder_level
        ≤ (feedAll samples Feedback.zero).totalFrames ∧
    (feedAll samples Feedback.zero).sitStraight
        ≤ (feedAll samples Feedback.zero).totalFrames := by
  induction samples using List.reverseRecOn with
  | nil => simp [feedAll_nil, Feedback.zero]
  | append_singleton rest s ih =>
    rw [feedAll_append_one]
    have hb := analysePosture_bounds s.videoRef s.keypoints (feedAll rest Feedback.zero)
    have ht := analysePosture_totalFrames s.videoRef s.keypoints (feedAll rest Feedback.zero)
    omega

/-- C3: no `analysePosture` call increments both `lookLeftCount` and
`lookRightCount`, whatever the nose x and the video state (missing element and
width 0 included); hence `lookLeftCount + lookRightCount ≤ totalFrames` in every
state reached from the all-zero state. -/
theorem C3_look_counts_exclusive :
    (∀ (videoRef : Option VideoElement) (keypoints : List (Option Keypoint)) (fb : Feedback),
      ¬ ((analysePosture videoRef keypoints fb).1.lookLeftCount = fb.lookLeftCount + 1 ∧
         (analysePosture videoRef keypoints fb).1.lookRightCount = fb.lookRightCount + 1)) ∧
    (∀ samples : List Sample,
      (feedAll samples Feedback.zero).lookLeftCount
          + (feedAll samples Feedback.zero).lookRightCount
        ≤ (feedAll samples Feedback.zero).totalFrames) := by
  refine ⟨?_, ?_⟩
  · intro videoRef keypoints fb hboth
    have hb := analysePosture_bounds videoRef keypoints fb
    omega
  · intro samples
    induction samples using List.reverseRecOn with
    | nil => simp [feedAll_nil, Feedback.zero]
    | append_singleton rest s ih =>
      rw [feedAll_append_one]
      have hb := analysePosture_bounds s.videoRef s.keypoints (feedAll rest Feedback.zero)
      have ht := analysePosture_totalFrames s.videoRef s.keypoints (feedAll rest Feedback.zero)
      omega

theorem add_ite_eq_succ_iff (a : Nat) (c : Prop) [Decidable c] :
    a + (if c then 1 else 0) = a + 1 ↔ c := by
  by_cases hc : c <;> simp [hc]

theorem add_ite_eq_self_iff (a : Nat) (c : Prop) [Decidable c] :
    a + (if c then 1 else 0) = a ↔ ¬ c := by
  by_cases hc : c <;> simp [hc]

/-- The counters after an accepted call, field by field. -/
theorem analysePosture_accepted_fields (videoRef : Option VideoElement)
    (keypoints : List (Option Keypoint)) (fb : Feedback) (nose l r : Keypoint)
    (hn : kpAt keypoints 0 = some nose) (hl : kpAt keypoints 5 = some l)
    (hr : kpAt keypoints 6 = some r) :
    (analysePosture videoRef keypoints fb).1.totalFrames = fb.totalFrames + 1 ∧
    (analysePosture videoRef keypoints fb).1.lookLeftCount
      = fb.lookLeftCount
        + (if normalizedNoseX videoRef nose < roundDouble (3 / 10) then 1 else 0) ∧
    (analysePosture videoRef keypoints fb).1.lookRightCount
      = fb.lookRightCount
        + (if normalizedNoseX videoRef nose > roundDouble (7 / 10) then 1 else 0) ∧
    (analysePosture videoRef keypoints fb).1.shoulder_level
      = fb.shoulder_level + (if shoulderSlope l r > 20 then 1 else 0) ∧
    (analysePosture videoRef keypoints fb).1.sitStraight
      = fb.sitStraight + (if normalizedNoseX videoRef nose < roundDouble (2 / 5) ∨
          normalizedNoseX videoRef nose > roundDouble (3 / 5) ∨
          shoulderSlope l r > 20 then 1 else 0) := by
  rw [analysePosture_accepted videoRef keypoints fb nose l r hn hl hr]
  obtain ⟨b1, b2, b3, b4, b5⟩ := bumpLook_fields (normalizedNoseX videoRef nose)
    { fb with totalFrames := fb.totalFrames + 1 }
  obtain ⟨c1, c2, c3, c4, c5⟩ := bumpPosture_fields (normalizedNoseX videoRef nose)
    (shoulderSlope l r)
    (bumpLook (normalizedNoseX videoRef nose) { fb with totalFrames := fb.totalFrames + 1 })
  simp only [c1, c2, c3, c4, c5, b1, b2, b3, b4, b5, and_self]

theorem normalizedNoseX_pos_width (vid : VideoElement) (nose : Keypoint)
    (hw : 0 < vid.videoWidth) :
    normalizedNoseX (some vid) nose = roundDouble (nose.x / (vid.videoWidth : ℚ)) := by
  have : vid.videoWidth ≠ 0 := Nat.pos_iff_ne_zero.1 hw
  simp [normalizedNoseX, videoWidthOr1, this]

/-- The divisor of line 102 spelled out: 1 without a video element or with width
0, the width otherwise. -/
theorem normalizedNoseX_of_width (videoRef : Option VideoElement) (w : Nat) (nose : Keypoint)
    (hw : (videoRef = none ∧ w = 1) ∨
      ∃ vid, videoRef = some vid ∧
        ((vid.videoWidth = 0 ∧ w = 1) ∨ (0 < vid.videoWidth ∧ w = vid.videoWidth))) :
    normalizedNoseX videoRef nose = roundDouble (nose.x / (w : ℚ)) := by
  rcases hw with ⟨hv, hw1⟩ | ⟨vid, hv, ⟨h0, hw1⟩ | ⟨hpos, hwv⟩⟩
  · subst hv; subst hw1
    simp [normalizedNoseX, videoWidthOr1]
  · subst hv; subst hw1
    simp [normalizedNoseX, videoWidthOr1, h0]
  · subst hv; subst hwv
    exact normalizedNoseX_pos_width vid nose hpos

/-- C4 (as stated) fails: in a 1024-wide frame with the nose at the double written
`307.2`, the coordinate is a double and `x / w` is below three tenths, yet the
quotient equals the double written `0.30`, the comparison of line 107 is false and
`lookLeftCount` is not incremented. -/
theorem C4_counterexample :
    roundDouble x307 = x307 ∧
    x307 / ((video1024.videoWidth : ℕ) : ℚ) < 3 / 10 ∧
    hasRequired kpsNear030 = true ∧
    (analysePosture (some video1024) kpsNear030 Feedback.zero).1.lookLeftCount = 0 := by
  decide!

/-- C4 (amended): for an accepted sample taken from a frame of width `w > 0` with
nose x-coordinate `x`, one `analysePosture` call adds exactly 1 to `lookLeftCount`
when the double quotient of `x` by `w` is below the double written `0.30` and
leaves it unchanged otherwise, and adds exactly 1 to `lookRightCount` when that
quotient is above the double written `0.70` and leaves it unchanged otherwise;
with `w = 640` and `x = 100` the left counter is incremented and the right one is
not. -/
theorem C4_look_thresholds (vid : VideoElement) (keypoints : List (Option Keypoint))
    (fb : Feedback) (nose l r : Keypoint) (hw : 0 < vid.videoWidth)
    (hn : kpAt keypoints 0 = some nose) (hl : kpAt keypoints 5 = some l)
    (hr : kpAt keypoints 6 = some r) :
    (analysePosture (some vid) keypoints fb).1.lookLeftCount
      = fb.lookLeftCount
        + (if roundDouble (nose.x / (vid.videoWidth : ℚ)) < roundDouble (3 / 10)
            then 1 else 0) ∧
    (analysePosture (some vid) keypoints fb).1.lookRightCount
      = fb.lookRightCount
        + (if roundDouble (nose.x / (vid.videoWidth : ℚ)) > roundDouble (7 / 10)
            then 1 else 0) ∧
    (vid.videoWidth = 640 → nose.x = 100 →
      (analysePosture (some vid) keypoints fb).1.lookLeftCount = fb.lookLeftCount + 1 ∧
      (analysePosture (some vid) keypoints fb).1.lookRightCount = fb.lookRightCount) := by
  obtain ⟨_, h2, h3, _, _⟩ :=
    analysePosture_accepted_fields (some vid) keypoints fb nose l r hn hl hr
  rw [normalizedNoseX_pos_width vid nose hw] at h2 h3
  refine ⟨h2, h3, ?_⟩
  intro h640 hx
  have hleft : roundDouble ((100 : ℚ) / ((640 : ℕ) : ℚ)) < roundDouble (3 / 10) := by
    decide!
  have hright : ¬ roundDouble ((100 : ℚ) / ((640 : ℕ) : ℚ)) > roundDouble (7 / 10) := by
    decide!
  rw [h2, h3, h640, hx, if_pos hleft, if_neg hright]
  exact ⟨rfl, rfl⟩

/-- The scenario of a 640-wide frame with the nose at x = 100. -/
theorem C4_witness :
    (analysePosture (some video640) kpsLeft Feedback.zero).1.lookLeftCount = 1 ∧
    (analysePosture (some video640) kpsLeft Feedback.zero).1.lookRightCount = 0 := by
  have h := (C4_look_thresholds video640 kpsLeft Feedback.zero ⟨100, 80⟩ ⟨400, 100⟩
    ⟨240, 100⟩ (by decide) rfl rfl rfl).2.2 rfl rfl
  simpa [Feedback.zero] using h

/-- C5 (as stated) fails: in a 1366-wide frame with the nose at the double written
`819.6` and level shoulders, `x / w` is above three fifths, yet the double
quotient equals the double written `0.60`, the comparison of line 112 is false
and `sitStraight` is not incremented. -/
theorem C5_counterexample :
    roundDouble x819 = x819 ∧
    x819 / ((video1366.videoWidth : ℕ) : ℚ) > 3 / 5 ∧
    hasRequired kpsNear060 = true ∧
    (analysePosture (some video1366) kpsNear060 Feedback.zero).1.sitStraight = 0 := by
  decide!

/-- C5 (amended): for an accepted sample with nose x-coordinate `x`, let `w` be
the video width, or 1 when there is no video element or its width is 0.  One
`analysePosture` call adds exactly 1 to the off-centre counter `sitStraight` if and
only if the double quotient of `x` by `w` is below the double written `0.40`, or
above the double written `0.60`, or the absolute value of the double difference
`leftShoulder.y − rightShoulder.y` is above 20, and leaves it unchanged otherwise;
when `x / w` is one half and both shoulders are at y = 100 only `totalFrames`
changes. -/
theorem C5_offcentre_threshold (videoRef : Option VideoElement) (w : Nat)
    (keypoints : List (Option Keypoint)) (fb : Feedback) (nose l r : Keypoint)
    (hw : (videoRef = none ∧ w = 1) ∨
      ∃ vid, videoRef = some vid ∧
        ((vid.videoWidth = 0 ∧ w = 1) ∨ (0 < vid.videoWidth ∧ w = vid.videoWidth)))
    (hn : kpAt keypoints 0 = some nose) (hl : kpAt keypoints 5 = some l)
    (hr : kpAt keypoints 6 = some r) :
    ((analysePosture videoRef keypoints fb).1.sitStraight = fb.sitStraight + 1 ↔
      (roundDouble (nose.x / (w : ℚ)) < roundDouble (2 / 5) ∨
        roundDouble (nose.x / (w : ℚ)) > roundDouble (3 / 5) ∨
        |roundDouble (l.y - r.y)| > 20)) ∧
    ((analysePosture videoRef keypoints fb).1.sitStraight = fb.sitStraight ↔
      ¬ (roundDouble (nose.x / (w : ℚ)) < roundDouble (2 / 5) ∨
        roundDouble (nose.x / (w : ℚ)) > roundDouble (3 / 5) ∨
        |roundDouble (l.y - r.y)| > 20)) ∧
    (nose.x / (w : ℚ) = 1 / 2 → l.y = 100 → r.y = 100 →
      (analysePosture videoRef keypoints fb).1
        = { fb with totalFrames := fb.totalFrames + 1 }) := by
  obtain ⟨h1, h2, h3, h4, h5⟩ :=
    analysePosture_accepted_fields videoRef keypoints fb nose l r hn hl hr
  unfold shoulderSlope at h4 h5
  rw [normalizedNoseX_of_width videoRef w nose hw] at h2 h3 h5
  refine ⟨?_, ?_, ?_⟩
  · rw [h5]
    exact add_ite_eq_succ_iff _ _
  · rw [h5]
    exact add_ite_eq_self_iff _ _
  · intro hx hly hry
    obtain ⟨_, d1, d2, d3, d4⟩ := double_half
    have hlevel := double_shoulder_scenarios.1
    rw [hx, hly, hry] at h5
    rw [hx] at h2 h3
    rw [hly, hry] at h4
    have hoff : ¬ (roundDouble (1 / 2) < roundDouble (2 / 5) ∨
        roundDouble (1 / 2) > roundDouble (3 / 5) ∨
        |roundDouble ((100 : ℚ) - 100)| > 20) := by
      rintro (h | h | h)
      · exact d3 h
      · exact d4 h
      · exact hlevel h
    rw [if_neg d1] at h2
    rw [if_neg d2] at h3
    rw [if_neg hlevel] at h4
    rw [if_neg hoff] at h5
    cases hres : (analysePosture videoRef keypoints fb).1
    rw [hres] at h1 h2 h3 h4 h5
    simp only [Nat.add_zero] at h1 h2 h3 h4 h5
    simp [h1, h2, h3, h4, h5]

/-- The scenario of a centred nose (320 of 640) over level shoulders. -/
theorem C5_witness :
    (analysePosture (some video640) kpsCentre Feedback.zero).1
      = { Feedback.zero with totalFrames := 1 } := by
  have h := (C5_offcentre_threshold (some video640) 640 kpsCentre Feedback.zero ⟨320, 80⟩
    ⟨400, 100⟩ ⟨240, 100⟩ (Or.inr ⟨video640, rfl, Or.inr ⟨by decide, rfl⟩⟩) rfl rfl rfl).2.2
    (by norm_num) rfl rfl
  simpa [Feedback.zero] using h

/-- C6 (as stated) fails: with the left shoulder at the double written `20.1` and
the right shoulder at the double written `0.1`, both coordinates are doubles and
`|leftShoulder.y − rightShoulder.y|` is above 20, yet the double difference is
exactly 20, the comparison of line 111 is false and `shoulder_level` is not
incremented. -/
theorem C6_counterexample :
    roundDouble y20 = y20 ∧ roundDouble y01 = y01 ∧
    |y20 - y01| > 20 ∧
    hasRequired kpsNearTilt = true ∧
    (analysePosture (some video640) kpsNearTilt Feedback.zero).1.shoulder_level = 0 := by
  decide!

/-- C6 (amended): for an accepted sample, one `analysePosture` call adds exactly 1
to the shoulder-tilt counter `shoulder_level` if and only if the absolute value of
the double difference `leftShoulder.y − rightShoulder.y` is above 20, and leaves
it unchanged otherwise, whatever the nose position and the video state; with
`nose.x = 320` in a 640-wide frame, `leftShoulder.y = 100` and
`rightShoulder.y = 125` the call increments `shoulder_level` and `sitStraight` and
neither `lookLeftCount` nor `lookRightCount`. -/
theorem C6_shoulder_tilt_threshold (videoRef : Option VideoElement)
    (keypoints : List (Option Keypoint)) (fb : Feedback) (nose l r : Keypoint)
    (hn : kpAt keypoints 0 = some nose) (hl : kpAt keypoints 5 = some l)
    (hr : kpAt keypoints 6 = some r) :
    ((analysePosture videoRef keypoints fb).1.shoulder_level = fb.shoulder_level + 1 ↔
      |roundDouble (l.y - r.y)| > 20) ∧
    ((analysePosture videoRef keypoints fb).1.shoulder_level = fb.shoulder_level ↔
      ¬ |roundDouble (l.y - r.y)| > 20) ∧
    (∀ vid : VideoElement, videoRef = some vid → vid.videoWidth = 640 → nose.x = 320 →
      l.y = 100 → r.y = 125 →
      (analysePosture videoRef keypoints fb).1.shoulder_level = fb.shoulder_level + 1 ∧
      (analysePosture videoRef keypoints fb).1.sitStraight = fb.sitStraight + 1 ∧
      (analysePosture videoRef keypoints fb).1.lookLeftCount = fb.lookLeftCount ∧
      (analysePosture videoRef keypoints fb).1.lookRightCount = fb.lookRightCount) := by
  obtain ⟨_, h2, h3, h4, h5⟩ :=
    analysePosture_accepted_fields videoRef keypoints fb nose l r hn hl hr
  unfold shoulderSlope at h4 h5
  refine ⟨?_, ?_, ?_⟩
  · rw [h4]
    exact add_ite_eq_succ_iff _ _
  · rw [h4]
    exact add_ite_eq_self_iff _ _
  · intro vid hv hw hx hly hry
    subst hv
    obtain ⟨_, d1, d2, _, _⟩ := double_half
    have htilt := double_shoulder_scenarios.2
    have hcentre : roundDouble ((320 : ℚ) / ((640 : ℕ) : ℚ)) = roundDouble (1 / 2) := by
      decide!
    have hn640 : normalizedNoseX (some vid) nose = roundDouble (1 / 2) := by
      rw [normalizedNoseX_pos_width vid nose (by omega), hw, hx, hcentre]
    rw [hn640] at h2 h3 h5
    rw [hly, hry] at h4 h5
    rw [if_neg d1] at h2
    rw [if_neg d2] at h3
    rw [if_pos htilt] at h4
    rw [if_pos (Or.inr (Or.inr htilt))] at h5
    exact ⟨h4, h5, h2, h3⟩

/-- The scenario of a centred nose with shoulders at y = 100 and y = 125. -/
theorem C6_witness :
    (analysePosture (some video640) kpsTilt Feedback.zero).1.shoulder_level = 1 ∧
    (analysePosture (some video640) kpsTilt Feedback.zero).1.sitStraight = 1 ∧
    (analysePosture (some video640) kpsTilt Feedback.zero).1.lookLeftCount = 0 ∧
    (analysePosture (some video640) kpsTilt Feedback.zero).1.lookRightCount = 0 := by
  have h := (C6_shoulder_tilt_threshold (some video640) kpsTilt Feedback.zero ⟨320, 80⟩
    ⟨400, 100⟩ ⟨240, 125⟩ rfl rfl rfl).2.2 video640 rfl rfl rfl rfl rfl
  simpa [Feedback.zero] using h

/-! ## Claims on the sampling step -/

/-- C7 (as stated) fails: a complete pose with score exactly 0.5, which is not
below 0.5, is rejected by the guard `poses[0].score > 0.5`; no counter moves. -/
theorem C7_counterexample :
    samplingGuard readySession = true ∧ hasRequired poseHalf.keypoints = true ∧
    poseHalf.score ≥ 1 / 2 ∧
    (samplingCallback [poseHalf] readySession).feedbackRef = readySession.feedbackRef := by
  refine ⟨by decide, by decide, ?_, ?_⟩
  · norm_num [poseHalf]
  · norm_num [samplingCallback, samplingGuard, afterEstimate, readySession, poseHalf,
      Session.init, video640]

/-- C7 (amended): when the sampling callback gets past its guard and
`estimatePoses` yields a pose first in its array, the pose is rejected exactly
when its score is at most 0.5: for every score `≤ 0.5` the state, all counters
included, is unchanged, and for every score `> 0.5` the keypoints go to
`analysePosture` and `totalFrames` grows by 1. -/
theorem C7_score_gate (s : Session) (p : Pose) (rest : List Pose)
    (hg : samplingGuard s = true) :
    (p.score ≤ 1 / 2 → samplingCallback (p :: rest) s = s) ∧
    (p.score > 1 / 2 →
      (samplingCallback (p :: rest) s).feedbackRef
        = (analysePosture s.videoRef p.keypoints s.feedbackRef).1 ∧
      (samplingCallback (p :: rest) s).feedbackRef.totalFrames
        = s.feedbackRef.totalFrames + 1) := by
  refine ⟨?_, ?_⟩
  · intro hle
    have hng : ¬ p.score > 1 / 2 := not_lt.2 hle
    simp only [samplingCallback, hg, afterEstimate, if_neg hng, if_true]
  · intro hgt
    have hfb : (samplingCallback (p :: rest) s).feedbackRef
        = (analysePosture s.videoRef p.keypoints s.feedbackRef).1 := by
      simp only [samplingCallback, hg, afterEstimate, if_pos hgt, if_true]
    exact ⟨hfb, by rw [hfb, analysePosture_totalFrames]⟩

/-- A complete pose with score 0.9 is counted. -/
theorem C7_witness :
    samplingGuard readySession = true ∧
    (samplingCallback [poseGood] readySession).feedbackRef.totalFrames = 1 := by
  have h := ((C7_score_gate readySession poseGood [] (by decide)).2
    (by norm_num [poseGood])).2
  exact ⟨by decide, by simpa [readySession, Session.init, Feedback.zero] using h⟩

/-- C8 (as stated) fails: on an empty keypoint array (nose absent) the call throws
and `totalFrames` has already been incremented. -/
theorem C8_counterexample :
    kpAt [] 0 = none ∧
    (analysePosture (some video640) [] Feedback.zero).2 = true ∧
    (analysePosture (some video640) [] Feedback.zero).1.totalFrames = 1 := by
  decide

/-- C8 (amended): when the nose, the left shoulder or the right shoulder is absent,
`analysePosture` throws a `TypeError` after it has added 1 to `totalFrames`;
`shoulder_level` and `sitStraight` are unchanged; the two gaze counters are
unchanged when the nose is absent, and are updated from the normalised nose x,
as for an accepted sample, when the nose is present and a shoulder is absent. -/
theorem C8_missing_keypoint_throws_after_count (videoRef : Option VideoElement)
    (keypoints : List (Option Keypoint)) (fb : Feedback)
    (h : hasRequired keypoints = false) :
    (analysePosture videoRef keypoints fb).2 = true ∧
    (analysePosture videoRef keypoints fb).1.totalFrames = fb.totalFrames + 1 ∧
    (analysePosture videoRef keypoints fb).1.shoulder_level = fb.shoulder_level ∧
    (analysePosture videoRef keypoints fb).1.sitStraight = fb.sitStraight ∧
    (kpAt keypoints 0 = none →
      (analysePosture videoRef keypoints fb).1.lookLeftCount = fb.lookLeftCount ∧
      (analysePosture videoRef keypoints fb).1.lookRightCount = fb.lookRightCount) ∧
    (∀ nose, kpAt keypoints 0 = some nose →
      (analysePosture videoRef keypoints fb).1.lookLeftCount
        = fb.lookLeftCount
          + (if normalizedNoseX videoRef nose < roundDouble (3 / 10) then 1 else 0) ∧
      (analysePosture videoRef keypoints fb).1.lookRightCount
        = fb.lookRightCount
          + (if normalizedNoseX videoRef nose > roundDouble (7 / 10) then 1 else 0)) := by
  unfold hasRequired at h
  unfold analysePosture
  cases h0 : kpAt keypoints 0 with
  | none => simp
  | some nose =>
    obtain ⟨b1, b2, b3, b4, b5⟩ := bumpLook_fields (normalizedNoseX videoRef nose)
      { fb with totalFrames := fb.totalFrames + 1 }
    cases h5 : kpAt keypoints 5 with
    | none => simp [b1, b2, b3, b4, b5]
    | some l =>
      cases h6 : kpAt keypoints 6 with
      | none => simp [b1, b2, b3, b4, b5]
      | some r => simp [h0, h5, h6] at h

/-- A keypoint array that ends before the right shoulder. -/
theorem C8_witness :
    hasRequired kpsNoRightShoulder = false ∧
    (analysePosture (some video640) kpsNoRightShoulder Feedback.zero).2 = true ∧
    (analysePosture (some video640) kpsNoRightShoulder Feedback.zero).1.totalFrames = 1 := by
  have h := C8_missing_keypoint_throws_after_count (some video640) kpsNoRightShoulder
    Feedback.zero (by decide)
  exact ⟨by decide, h.1, by simpa [Feedback.zero] using h.2.1⟩

/-! ## Session end and late sampling callbacks -/

theorem run_nil (s : Session) : run [] s = s := rfl

theorem run_cons (e : Event) (rest : List Event) (s : Session) :
    run (e :: rest) s = run rest (step e s) := rfl

theorem run_append_one (events : List Event) (e : Event) (s : Session) :
    run (events ++ [e]) s = step e (run events s) := by
  simp [run, List.foldl_append]

theorem afterEstimate_fields (poses : List Pose) (s : Session) :
    (afterEstimate poses s).inFlight = s.inFlight ∧
    (afterEstimate poses s).loadPending = s.loadPending ∧
    (afterEstimate poses s).loopRunning = s.loopRunning ∧
    (afterEstimate poses s).loopRef = s.loopRef ∧
    (afterEstimate poses s).navigated = s.navigated := by
  unfold afterEstimate
  cases poses with
  | nil => simp
  | cons p rest => by_cases hp : p.score > 1 / 2 <;> simp only [if_pos, if_neg, hp] <;> simp

/-- In every state the running sampling interval is the one `loopRef.current`
holds. -/
theorem step_loopRef_of_running (e : Event) (s : Session)
    (h : s.loopRunning = true → s.loopRef = true) :
    (step e s).loopRunning = true → (step e s).loopRef = true := by
  cases e with
  | modelLoaded =>
    unfold step modelLoaded startAnalysisLoop
    by_cases hp : s.loadPending = true <;> simp [hp]
    exact h
  | loopFire =>
    unfold step loopFire
    by_cases hc : (s.loopRunning && samplingGuard s) = true <;> simp only [hc, if_true] <;>
      simpa using h
  | posesResolved poses =>
    unfold step posesResolved
    by_cases hz : s.inFlight = 0
    · simpa [hz] using h
    · obtain ⟨_, _, a3, a4, _⟩ :=
        afterEstimate_fields poses { s with inFlight := s.inFlight - 1 }
      simp only [hz, if_false, a3, a4]
      exact h
  | countdownTick =>
    unfold step countdownTick navigate clearLoop
    by_cases ht : s.timerRunning = true <;> by_cases hs : s.secondsRemaining ≤ 1 <;>
      by_cases hr : s.loopRef = true <;> simp [ht, hs, hr] <;> simpa [hr] using h
  | endInterview =>
    unfold step handleEndInterview navigate clearLoop
    by_cases hr : s.loopRef = true
    · simp [hr]
    · simpa [hr] using h
  | unmount =>
    unfold step unmount clearLoop
    by_cases hr : s.loopRef = true
    · simp [hr]
    · simpa [hr] using h
  | setVideo video =>
    simpa [step] using h

theorem run_loopRef_of_running (events : List Event) (s : Session)
    (h : s.loopRunning = true → s.loopRef = true) :
    (run events s).loopRunning = true → (run events s).loopRef = true := by
  induction events generalizing s with
  | nil => simpa [run_nil] using h
  | cons e rest ih =>
    rw [run_cons]
    exact ih (step e s) (step_loopRef_of_running e s h)

/-- An event that calls `navigate` leaves the sampling interval cleared, and
keeps the number of suspended callbacks and the loading flag. -/
theorem step_navigated_clears_loop (e : Event) (s : Session)
    (hwf : s.loopRunning = true → s.loopRef = true)
    (hnav : (step e s).navigated ≠ s.navigated) :
    (step e s).loopRunning = false ∧ (step e s).inFlight = s.inFlight ∧
      (step e s).loadPending = s.loadPending := by
  cases e with
  | modelLoaded =>
    exfalso; apply hnav
    unfold step modelLoaded startAnalysisLoop
    by_cases hp : s.loadPending = true <;> simp [hp]
  | loopFire =>
    exfalso; apply hnav
    unfold step loopFire
    by_cases hc : (s.loopRunning && samplingGuard s) = true <;> simp [hc]
  | posesResolved poses =>
    exfalso; apply hnav
    unfold step posesResolved
    by_cases hz : s.inFlight = 0
    · simp [hz]
    · simp only [hz, if_false, (afterEstimate_fields poses _).2.2.2.2]
  | countdownTick =>
    revert hnav
    unfold step countdownTick navigate clearLoop
    by_cases ht : s.timerRunning = true <;> by_cases hs : s.secondsRemaining ≤ 1 <;>
      by_cases hr : s.loopRef = true <;> simp [ht, hs, hr]
    cases hrun : s.loopRunning with
    | false => rfl
    | true => exact absurd (hwf hrun) hr
  | endInterview =>
    unfold step handleEndInterview navigate clearLoop
    by_cases hr : s.loopRef = true <;> simp [hr]
    cases hrun : s.loopRunning with
    | false => rfl
    | true => exact absurd (hwf hrun) hr
  | unmount =>
    exfalso; apply hnav
    unfold step unmount clearLoop
    by_cases hr : s.loopRef = true <;> simp [hr]
  | setVideo video =>
    exfalso; apply hnav
    simp [step]

/-- With the model loaded, the sampling interval cleared and no callback
suspended, no event touches the counters, and this situation persists. -/
theorem step_quiet (e : Event) (s : Session) (hq : s.inFlight = 0)
    (hl : s.loadPending = false) (hr : s.loopRunning = false) :
    (step e s).inFlight = 0 ∧ (step e s).loadPending = false ∧
      (step e s).loopRunning = false ∧ (step e s).feedbackRef = s.feedbackRef := by
  cases e with
  | modelLoaded => simp [step, modelLoaded, hq, hl, hr]
  | loopFire => simp [step, loopFire, hq, hl, hr]
  | posesResolved poses => simp [step, posesResolved, hq, hl, hr]
  | countdownTick =>
    unfold step countdownTick navigate clearLoop
    by_cases ht : s.timerRunning = true <;> by_cases hs : s.secondsRemaining ≤ 1 <;>
      by_cases hf : s.loopRef = true <;> simp [ht, hs, hf, hq, hl, hr]
  | endInterview =>
    unfold step handleEndInterview navigate clearLoop
    by_cases hf : s.loopRef = true <;> simp [hf, hq, hl, hr]
  | unmount =>
    unfold step unmount clearLoop
    by_cases hf : s.loopRef = true <;> simp [hf, hq, hl, hr]
  | setVideo video => simp [step, hq, hl, hr]

theorem run_quiet (events : List Event) (s : Session) (hq : s.inFlight = 0)
    (hl : s.loadPending = false) (hr : s.loopRunning = false) :
    (run events s).feedbackRef = s.feedbackRef := by
  induction events generalizing s with
  | nil => rfl
  | cons e rest ih =>
    obtain ⟨q1, q2, q3, q4⟩ := step_quiet e s hq hl hr
    rw [run_cons, ih (step e s) q1 q2 q3, q4]

/-- C9 (as stated) fails: a sampling callback that was awaiting `estimatePoses`
when `handleEndInterview` ran resumes afterwards and `analysePosture` raises
`totalFrames` from the value 0 that was handed to `navigate` to 1. -/
theorem C9_counterexample :
    (run [.modelLoaded, .loopFire, .endInterview]
        (Session.init 2700 (some video640))).navigated = [Feedback.zero] ∧
    (run [.modelLoaded, .loopFire, .endInterview]
        (Session.init 2700 (some video640))).feedbackRef = Feedback.zero ∧
    (run [.modelLoaded, .loopFire, .endInterview, .posesResolved [poseGood]]
        (Session.init 2700 (some video640))).feedbackRef.totalFrames = 1 := by
  refine ⟨by decide, by decide, ?_⟩
  norm_num [run, step, modelLoaded, loopFire, handleEndInterview, posesResolved,
    startAnalysisLoop, clearLoop, navigate, samplingGuard, afterEstimate, poseGood,
    Session.init, video640, Feedback.zero, analysePosture_totalFrames]

/-- C9 (amended): take any state reached from mount and an event that hands the
feedback to `navigate` (`handleEndInterview`, or the countdown tick that expires).
If at that moment the model has finished loading and no sampling callback is
suspended at `estimatePoses`, then after every later sequence of events all five
counters equal their values at that moment.  `analysePosture` itself has no
session-ended guard: whenever a suspended callback resumes with a pose of score
above 0.5, `totalFrames` grows by 1. -/
theorem C9_counters_frozen_without_pending_callback (seconds : Int)
    (video : Option VideoElement) (before later : List Event) (e : Event)
    (hend : (step e (run before (Session.init seconds video))).navigated
      ≠ (run before (Session.init seconds video)).navigated)
    (hidle : (step e (run before (Session.init seconds video))).inFlight = 0)
    (hloaded : (step e (run before (Session.init seconds video))).loadPending = false) :
    (run later (step e (run before (Session.init seconds video)))).feedbackRef
      = (step e (run before (Session.init seconds video))).feedbackRef ∧
    (∀ (s : Session) (p : Pose) (rest : List Pose), 0 < s.inFlight → p.score > 1 / 2 →
      (posesResolved (p :: rest) s).feedbackRef.totalFrames
        = s.feedbackRef.totalFrames + 1) := by
  refine ⟨?_, ?_⟩
  · have hwf : (run before (Session.init seconds video)).loopRunning = true →
        (run before (Session.init seconds video)).loopRef = true :=
      run_loopRef_of_running before _ (by simp [Session.init])
    obtain ⟨hstop, _, _⟩ := step_navigated_clears_loop e _ hwf hend
    exact run_quiet later _ hidle hloaded hstop
  · intro s p rest hpos hgt
    have hz : ¬ s.inFlight = 0 := by omega
    simp only [posesResolved, if_neg hz, afterEstimate, if_pos hgt,
      analysePosture_totalFrames]

/-- A manual end with the model loaded and no callback suspended, followed by late events. -/
theorem C9_witness :
    (run [.loopFire, .posesResolved [poseGood], .countdownTick, .unmount]
      (step .endInterview
        (run [.modelLoaded, .loopFire, .posesResolved [poseGood]]
          (Session.init 2700 (some video640))))).feedbackRef
      = (step .endInterview
        (run [.modelLoaded, .loopFire, .posesResolved [poseGood]]
          (Session.init 2700 (some video640)))).feedbackRef :=
  (C9_counters_frozen_without_pending_callback 2700 (some video640)
    [.modelLoaded, .loopFire, .posesResolved [poseGood]]
    [.loopFire, .posesResolved [poseGood], .countdownTick, .unmount] .endInterview
    (by norm_num [run, step, modelLoaded, loopFire, handleEndInterview, posesResolved,
      startAnalysisLoop, clearLoop, navigate, samplingGuard, afterEstimate, poseGood,
      Session.init, video640])
    (by norm_num [run, step, modelLoaded, loopFire, handleEndInterview, posesResolved,
      startAnalysisLoop, clearLoop, navigate, samplingGuard, afterEstimate, poseGood,
      Session.init, video640])
    (by norm_num [run, step, modelLoaded, loopFire, handleEndInterview, posesResolved,
      startAnalysisLoop, clearLoop, navigate, samplingGuard, afterEstimate, poseGood,
      Session.init, video640])).1

/-! ## The countdown -/

theorem ticks_zero (s : Session) : ticks 0 s = s := rfl

theorem ticks_succ (k : Nat) (s : Session) :
    ticks (k + 1) s = countdownTick (ticks k s) := by
  unfold ticks
  exact Function.iterate_succ_apply' countdownTick k s

/-- Before the last second nothing but `secondsRemaining` moves. -/
theorem ticks_before_expiry (d : Nat) (s : Session) (hs : s.secondsRemaining = (d : Int))
    (ht : s.timerRunning = true) (k : Nat) (hk : k < d) :
    ticks k s = { s with secondsRemaining := (d : Int) - (k : Int) } := by
  induction k with
  | zero =>
    rw [ticks_zero]
    cases s
    simp only [Session.mk.injEq, and_true, true_and] at hs ⊢
    simpa using hs
  | succ k ih =>
    have hgt : ¬ ((d : Int) - (k : Int) ≤ 1) := by omega
    rw [ticks_succ, ih (by omega)]
    simp only [countdownTick, ht, if_true, if_neg hgt, Session.mk.injEq, and_true, true_and]
    push_cast
    ring

/-- The tick that finds one second left clears both intervals, navigates and
stores 0. -/
theorem ticks_at_expiry (d : Nat) (s : Session) (hd : 0 < d)
    (hs : s.secondsRemaining = (d : Int)) (ht : s.timerRunning = true) :
    ticks d s
      = { navigate (clearLoop { s with timerRunning := false }) with secondsRemaining := 0 } := by
  obtain ⟨m, rfl⟩ : ∃ m, d = m + 1 := ⟨d - 1, by omega⟩
  have hle : ((m + 1 : Nat) : Int) - (m : Int) ≤ 1 := by omega
  rw [ticks_succ, ticks_before_expiry (m + 1) s hs ht m (by omega)]
  simp only [countdownTick, ht, if_true, if_pos hle, navigate, clearLoop]
  by_cases hr : s.loopRef = true <;> simp [hr]

theorem ticks_stopped (k : Nat) (s : Session) (ht : s.timerRunning = false) :
    ticks k s = s := by
  induction k with
  | zero => rfl
  | succ k ih => rw [ticks_succ, ih]; simp [countdownTick, ht]

theorem ticks_add (j k : Nat) (s : Session) : ticks (j + k) s = ticks j (ticks k s) := by
  unfold ticks
  exact Function.iterate_add_apply countdownTick j k s

/-- C10: for every positive integer `d`, a running countdown with
`secondsRemaining = d` loses exactly 1 on each of its first `d` ticks, is never
negative, is 0 after the `d`-th tick, and calls `navigate` with the feedback
exactly once: not during the first `d − 1` ticks (the countdown keeps running),
on the `d`-th tick (which also clears the countdown interval and the sampling
interval held by `loopRef`), and never again on later ticks. -/
theorem C10_countdown_expires_once (d : Nat) (s : Session) (hd : 0 < d)
    (hs : s.secondsRemaining = (d : Int)) (ht : s.timerRunning = true) :
    (∀ k, k < d → (ticks (k + 1) s).secondsRemaining = (ticks k s).secondsRemaining - 1) ∧
    (∀ k, 0 ≤ (ticks k s).secondsRemaining) ∧
    (ticks d s).secondsRemaining = 0 ∧
    (∀ k, k < d → (ticks k s).navigated = s.navigated ∧ (ticks k s).timerRunning = true) ∧
    (ticks d s).navigated = s.feedbackRef :: s.navigated ∧
    (ticks d s).timerRunning = false ∧
    (s.loopRef = true → (ticks d s).loopRunning = false) ∧
    (∀ k, d ≤ k → ticks k s = ticks d s) := by
  have hexp := ticks_at_expiry d s hd hs ht
  have hstop : (ticks d s).timerRunning = false := by
    rw [hexp]; simp [navigate, clearLoop]; split_ifs <;> rfl
  have hzero : (ticks d s).secondsRemaining = 0 := by rw [hexp]
  have hafter : ∀ k, d ≤ k → ticks k s = ticks d s := by
    intro k hk
    obtain ⟨j, rfl⟩ : ∃ j, k = j + d := ⟨k - d, by omega⟩
    rw [ticks_add, ticks_stopped j _ hstop]
  refine ⟨?_, ?_, hzero, ?_, ?_, hstop, ?_, hafter⟩
  · intro k hk
    by_cases hlast : k + 1 = d
    · rw [hlast, hzero, ticks_before_expiry d s hs ht k hk]
      simp only
      omega
    · rw [ticks_before_expiry d s hs ht (k + 1) (by omega),
        ticks_before_expiry d s hs ht k hk]
      simp only
      push_cast
      ring
  · intro k
    by_cases hk : k < d
    · rw [ticks_before_expiry d s hs ht k hk]
      simp only
      omega
    · rw [hafter k (by omega), hzero]
  · intro k hk
    rw [ticks_before_expiry d s hs ht k hk]
    exact ⟨rfl, ht⟩
  · rw [hexp]
    simp only [navigate, clearLoop]
    split_ifs <;> rfl
  · intro hr
    rw [hexp]
    simp [navigate, clearLoop, hr]

/-- A five-second countdown. -/
theorem C10_witness :
    (ticks 5 (Session.init 5 none)).secondsRemaining = 0 ∧
    (ticks 4 (Session.init 5 none)).navigated = [] ∧
    (ticks 5 (Session.init 5 none)).navigated = [Feedback.zero] ∧
    (ticks 9 (Session.init 5 none)) = ticks 5 (Session.init 5 none) :=
  have h := C10_countdown_expires_once 5 (Session.init 5 none) (by decide) rfl rfl
  ⟨h.2.2.1, (h.2.2.2.1 4 (by decide)).1, h.2.2.2.2.1, h.2.2.2.2.2.2.2 9 (by decide)⟩

/-! ## Delivery of the feedback -/

theorem manualEnds_cons (e : Event) (rest : List Event) :
    manualEnds (e :: rest) = (if isManualEnd e then 1 else 0) + manualEnds rest := by
  unfold manualEnds
  by_cases h : isManualEnd e = true
  · simp [List.filter_cons, h]; omega
  · simp [List.filter_cons, h]

/-- No event restarts the countdown, and with the countdown cleared only
`handleEndInterview` calls `navigate`. -/
theorem step_timer_stopped (e : Event) (s : Session) (ht : s.timerRunning = false) :
    (step e s).timerRunning = false ∧
      (step e s).navigated.length
        = s.navigated.length + (if isManualEnd e then 1 else 0) := by
  cases e with
  | modelLoaded =>
    unfold step modelLoaded startAnalysisLoop
    by_cases hp : s.loadPending = true <;> simp [hp, ht, isManualEnd]
  | loopFire =>
    unfold step loopFire
    by_cases hc : (s.loopRunning && samplingGuard s) = true <;> simp [hc, ht, isManualEnd]
  | posesResolved poses =>
    unfold step posesResolved afterEstimate
    by_cases hz : s.inFlight = 0
    · simp [hz, ht, isManualEnd]
    · cases poses with
      | nil => simp [hz, ht, isManualEnd]
      | cons p rest =>
        by_cases hp : p.score > 1 / 2 <;> simp only [hz, if_false, if_pos, if_neg, hp] <;>
          simp [ht, isManualEnd]
  | countdownTick => simp [step, countdownTick, ht, isManualEnd]
  | endInterview =>
    unfold step handleEndInterview navigate clearLoop
    by_cases hr : s.loopRef = true <;> simp [hr, ht, isManualEnd]
  | unmount => simp [step, unmount, clearLoop, isManualEnd]; split_ifs <;> rfl
  | setVideo video => simp [step, ht, isManualEnd]

theorem run_timer_stopped (events : List Event) (s : Session)
    (ht : s.timerRunning = false) :
    (run events s).navigated.length = s.navigated.length + manualEnds events := by
  induction events generalizing s with
  | nil => simp [run_nil, manualEnds]
  | cons e rest ih =>
    obtain ⟨h1, h2⟩ := step_timer_stopped e s ht
    rw [run_cons, ih (step e s) h1, h2, manualEnds_cons]
    omega

/-- One event adds at most one delivery, and a delivery that is not a manual end
uses up the running countdown. -/
theorem step_delivery_budget (e : Event) (s : Session) :
    (step e s).navigated.length + (if (step e s).timerRunning then 1 else 0)
      ≤ s.navigated.length + (if s.timerRunning then 1 else 0)
        + (if isManualEnd e then 1 else 0) := by
  cases e with
  | modelLoaded =>
    unfold step modelLoaded startAnalysisLoop
    by_cases hp : s.loadPending = true <;> simp [hp, isManualEnd]
  | loopFire =>
    unfold step loopFire
    by_cases hc : (s.loopRunning && samplingGuard s) = true <;> simp [hc, isManualEnd]
  | posesResolved poses =>
    unfold step posesResolved afterEstimate
    by_cases hz : s.inFlight = 0
    · simp [hz, isManualEnd]
    · cases poses with
      | nil => simp [hz, isManualEnd]
      | cons p rest =>
        by_cases hp : p.score > 1 / 2 <;> simp only [hz, if_false, if_pos, if_neg, hp] <;>
          simp [isManualEnd]
  | countdownTick =>
    unfold step countdownTick navigate clearLoop
    by_cases ht : s.timerRunning = true <;> by_cases hs : s.secondsRemaining ≤ 1 <;>
      by_cases hr : s.loopRef = true <;> simp [ht, hs, hr, isManualEnd]
  | endInterview =>
    unfold step handleEndInterview navigate clearLoop
    by_cases hr : s.loopRef = true <;> simp [hr, isManualEnd] <;> omega
  | unmount =>
    unfold step unmount clearLoop
    by_cases hr : s.loopRef = true <;> by_cases ht : s.timerRunning = true <;>
      simp [hr, ht, isManualEnd]
  | setVideo video => simp [step, isManualEnd]

theorem run_delivery_budget (events : List Event) (s : Session) :
    (run events s).navigated.length + (if (run events s).timerRunning then 1 else 0)
      ≤ s.navigated.length + (if s.timerRunning then 1 else 0) + manualEnds events := by
  induction events generalizing s with
  | nil => simp [run_nil, manualEnds]
  | cons e rest ih =>
    have h1 := ih (step e s)
    have h2 := step_delivery_budget e s
    rw [run_cons, manualEnds_cons]
    omega

/-- C11 (as stated) fails: `handleEndInterview` leaves the countdown running, and
a countdown tick with one second left that fires after a manual end delivers the
feedback a second time. -/
theorem C11_counterexample :
    (handleEndInterview (Session.init 1 none)).timerRunning = true ∧
    (run [.endInterview, .countdownTick] (Session.init 1 none)).navigated
      = [Feedback.zero, Feedback.zero] := by
  decide

/-- C11 (amended): `handleEndInterview` delivers the feedback once and does not
cancel the countdown; the countdown is cancelled by its own expiry and by the
unmount clean-up.  Once the clean-up has run after a manual end no countdown tick
delivers again: the deliveries are that one plus the later runs of
`handleEndInterview`.  In every run the expiry path delivers at most once: the
number of deliveries is at most the number of manual ends plus one. -/
theorem C11_delivery_paths :
    (∀ s : Session,
      (handleEndInterview s).navigated = s.feedbackRef :: s.navigated ∧
      (handleEndInterview s).timerRunning = s.timerRunning) ∧
    (∀ (s : Session) (later : List Event),
      (run later (unmount (handleEndInterview s))).navigated.length
        = s.navigated.length + 1 + manualEnds later) ∧
    (∀ (s : Session) (events : List Event),
      (run events s).navigated.length ≤ s.navigated.length + manualEnds events + 1) := by
  refine ⟨?_, ?_, ?_⟩
  · intro s
    unfold handleEndInterview navigate clearLoop
    by_cases hr : s.loopRef = true <;> simp [hr]
  · intro s later
    have hstop : (unmount (handleEndInterview s)).timerRunning = false := by
      simp [unmount, clearLoop]
    have hlen : (unmount (handleEndInterview s)).navigated.length
        = s.navigated.length + 1 := by
      unfold unmount handleEndInterview navigate clearLoop
      by_cases hr : s.loopRef = true <;> simp [hr]
    rw [run_timer_stopped later _ hstop, hlen]
  · intro s events
    have h := run_delivery_budget events s
    have h1 : (if s.timerRunning = true then 1 else 0) ≤ 1 := by split_ifs <;> omega
    omega

/-! ## The streamed assistant reply -/

theorem foldl_append_string (acc : String) (parts : List String) :
    parts.foldl (fun r t => r ++ t) acc = acc ++ parts.foldl (fun r t => r ++ t) "" := by
  induction parts generalizing acc with
  | nil => simp
  | cons t rest ih =>
    rw [List.foldl_cons, List.foldl_cons, ih (acc ++ t), ih ("" ++ t), String.empty_append,
      String.append_assoc]

theorem concatFragments_nil : concatFragments [] = "" := rfl

theorem concatFragments_cons (f : Option String) (rest : List (Option String)) :
    concatFragments (f :: rest) = f.getD "" ++ concatFragments rest := by
  unfold concatFragments String.join
  rw [List.map_cons, List.foldl_cons, foldl_append_string, String.empty_append]

theorem replaceLast_concat (h : List Message) (old entry : Message) :
    replaceLast (h ++ [old]) entry = h ++ [entry] := by
  unfold replaceLast
  cases hh : h ++ [old] with
  | nil => simp at hh
  | cons a rest => rw [← hh, List.dropLast_concat, hh]

/-- The loop invariant of `askAI` when nothing else touches the conversation: it is
the history followed by one assistant entry holding `fullResponse`. -/
theorem consumeStream_chunks (h : List Message) (fragments : List (Option String))
    (fullResponse : String) :
    consumeStream (fragments.map StreamStep.chunk) fullResponse
        (h ++ [{ role := .assistant, content := fullResponse }])
      = (h ++ [{ role := .assistant, content := fullResponse ++ concatFragments fragments }],
          fullResponse ++ concatFragments fragments) := by
  induction fragments generalizing fullResponse with
  | nil => simp [consumeStream, concatFragments_nil]
  | cons f rest ih =>
    rw [List.map_cons, concatFragments_cons]
    cases f with
    | none =>
      simp only [consumeStream, Option.getD_none, String.empty_append]
      exact ih fullResponse
    | some text =>
      by_cases ht : text = ""
      · subst ht
        simp only [consumeStream, if_true, Option.getD_some, String.empty_append]
        exact ih fullResponse
      · simp only [consumeStream, if_neg ht, Option.getD_some, replaceLast_concat]
        rw [ih (fullResponse ++ text), String.append_assoc]

theorem replaceLast_keeps_front (h tail : List Message) (entry : Message)
    (ht : tail ≠ []) :
    ∃ tail2, tail2 ≠ [] ∧ replaceLast (h ++ tail) entry = h ++ tail2 := by
  refine ⟨tail.dropLast ++ [entry], by simp, ?_⟩
  have hne : h ++ tail ≠ [] := by simp [ht]
  unfold replaceLast
  cases hh : h ++ tail with
  | nil => exact absurd hh hne
  | cons a rest =>
    have hd : (h ++ tail).dropLast = h ++ tail.dropLast :=
      List.dropLast_append_of_ne_nil h ht
    rw [hh] at hd
    simp only [hd, List.append_assoc]

/-- Whatever interleaves, the entries that were there before the placeholder stay
in front. -/
theorem consumeStream_keeps_front (steps : List StreamStep) :
    ∀ (fullResponse : String) (h tail : List Message), tail ≠ [] →
      ∃ tail2, tail2 ≠ [] ∧ (consumeStream steps fullResponse (h ++ tail)).1 = h ++ tail2 := by
  induction steps with
  | nil => intro fullResponse h tail ht; exact ⟨tail, ht, rfl⟩
  | cons step rest ih =>
    intro fullResponse h tail ht
    cases step with
    | failure => exact ⟨tail, ht, rfl⟩
    | chunk content =>
      cases content with
      | none => simpa only [consumeStream] using ih fullResponse h tail ht
      | some text =>
        by_cases hempty : text = ""
        · simpa only [consumeStream, hempty, if_true] using ih fullResponse h tail ht
        · obtain ⟨t2, ht2, e2⟩ := replaceLast_keeps_front h tail
            { role := .assistant, content := fullResponse ++ text } ht
          simp only [consumeStream, if_neg hempty, e2]
          exact ih (fullResponse ++ text) h t2 ht2
    | appended entry =>
      simp only [consumeStream, List.append_assoc]
      exact ih fullResponse h (tail ++ [entry]) (by simp)
    | replaced entry =>
      obtain ⟨t2, ht2, e2⟩ := replaceLast_keeps_front h tail entry ht
      simp only [consumeStream, e2]
      exact ih fullResponse h t2 ht2

/-- C12 (as stated) fails: `handleSubmit` runs between two fragments and appends a
user entry; the next fragment update replaces that entry, the last one, so the
conversation ends with two assistant entries, has length `|h| + 2`, and the
submitted entry is gone. -/
theorem C12_counterexample :
    (askAI true [.chunk (some "Hel"), .appended submittedCode, .chunk (some "lo")]
        chatHistory).1
      = chatHistory ++ [{ role := .assistant, content := "Hel" },
          { role := .assistant, content := "Hello" }] ∧
    (askAI true [.chunk (some "Hel"), .appended submittedCode, .chunk (some "lo")]
        chatHistory).1.length = chatHistory.length + 2 ∧
    submittedCode ∉
      (askAI true [.chunk (some "Hel"), .appended submittedCode, .chunk (some "lo")]
        chatHistory).1 := by
  decide

/-- C12 (amended): for every conversation history `h` and every finite sequence of
streamed fragments, when no other update of the conversation happens between the
placeholder and the last fragment, `askAI` leaves the conversation equal to `h`
followed by exactly one assistant entry whose content is the concatenation of the
fragments in arrival order, empty and missing fragments contributing nothing, and
returns that concatenation; after every initial part of the fragments the
conversation has length `|h| + 1` and starts with the unchanged entries of `h`.
Whatever other updates interleave, the entries of `h` are unchanged. -/
theorem C12_streamed_reply (h : List Message) (fragments : List (Option String)) :
    askAI true (fragments.map StreamStep.chunk) h
      = (h ++ [{ role := .assistant, content := concatFragments fragments }],
          concatFragments fragments) ∧
    (∀ k : Nat,
      (askAI true ((fragments.take k).map StreamStep.chunk) h).1
        = h ++ [{ role := .assistant, content := concatFragments (fragments.take k) }] ∧
      (askAI true ((fragments.take k).map StreamStep.chunk) h).1.length = h.length + 1 ∧
      (askAI true ((fragments.take k).map StreamStep.chunk) h).1.take h.length = h) ∧
    (∀ steps : List StreamStep, (askAI true steps h).1.take h.length = h) := by
  have key : ∀ fs : List (Option String),
      askAI true (fs.map StreamStep.chunk) h
        = (h ++ [{ role := .assistant, content := concatFragments fs }],
            concatFragments fs) := by
    intro fs
    have := consumeStream_chunks h fs ""
    simpa [askAI] using this
  refine ⟨key fragments, ?_, ?_⟩
  · intro k
    rw [key (fragments.take k)]
    simp
  · intro steps
    obtain ⟨t2, _, e2⟩ := consumeStream_keeps_front steps "" h
      [{ role := .assistant, content := "" }] (by simp)
    simp only [askAI, if_true, e2]
    simp

/-! ## The history handed to the model -/

theorem stripLeadingModel_eq_dropWhile (history : List HistoryEntry) :
    stripLeadingModel history
      = history.dropWhile (fun e => decide (e.role = .model)) := by
  induction history with
  | nil => rfl
  | cons first rest ih =>
    by_cases hm : first.role = .model
    · simp [stripLeadingModel, List.dropWhile_cons, hm, ih]
    · simp [stripLeadingModel, List.dropWhile_cons, hm]

/-- The loop stops after at most `history.length` iterations: its result is the
list without its first `k` entries, `k` being the length of the leading run of
`model` entries. -/
theorem stripLeadingModel_eq_drop (history : List HistoryEntry) :
    stripLeadingModel history
      = history.drop (history.takeWhile (fun e => decide (e.role = .model))).length ∧
    (history.takeWhile (fun e => decide (e.role = .model))).length ≤ history.length := by
  induction history with
  | nil => exact ⟨rfl, Nat.le_refl _⟩
  | cons first rest ih =>
    by_cases hm : first.role = .model
    · simp only [stripLeadingModel, hm, if_true, List.takeWhile_cons, decide_True,
        List.length_cons, List.drop_succ_cons]
      exact ⟨ih.1, Nat.succ_le_succ ih.2⟩
    · simp [stripLeadingModel, List.takeWhile_cons, hm]

theorem stripLeadingModel_head (history : List HistoryEntry) :
    stripLeadingModel history = [] ∨
      ∃ first rest, stripLeadingModel history = first :: rest ∧ first.role = .user := by
  induction history with
  | nil => exact Or.inl rfl
  | cons first rest ih =>
    by_cases hm : first.role = .model
    · simpa [stripLeadingModel, hm] using ih
    · refine Or.inr ⟨first, rest, by simp [stripLeadingModel, hm], ?_⟩
      cases hr : first.role with
      | model => exact absurd hr hm
      | user => rfl

/-- C13: for every non-empty message list, the handler reaches `startChat` with
the history made of all messages except the last, in order, each mapped to role
`model` when its role is `"assistant"` and to `user` otherwise, with its extracted
text (element 0 of an array content, the content itself otherwise), the leading
run of `model` entries removed; the stripping loop ends after at most as many
iterations as there are entries; the history is empty or begins with a `user`
entry; the prompt is the extracted text of the last message. -/
theorem C13_history_preparation (messages : List RawMessage) (hne : messages ≠ []) :
    prepareChat (some messages)
      = .ok (historySpec messages, extractText (messages.getLast hne).content) ∧
    (∃ k, k ≤ (messages.dropLast.map toHistoryEntry).length ∧
      historySpec messages = (messages.dropLast.map toHistoryEntry).drop k) ∧
    (historySpec messages = [] ∨
      ∃ first rest, historySpec messages = first :: rest ∧ first.role = .user) ∧
    (∀ msg : RawMessage,
      ((toHistoryEntry msg).role = .model ↔ msg.role = .str "assistant") ∧
      ((toHistoryEntry msg).role = .user ↔ msg.role ≠ .str "assistant") ∧
      (toHistoryEntry msg).text = extractText msg.content) ∧
    (∀ (item : JsValue) (items : List JsValue), extractText (.array (item :: items)) = item) ∧
    (∀ content : JsValue, (∀ items, content ≠ .array items) → extractText content = content) := by
  have hspec : historySpec messages
      = stripLeadingModel (messages.dropLast.map toHistoryEntry) := by
    rw [stripLeadingModel_eq_dropWhile]; rfl
  refine ⟨?_, ?_, ?_, ?_, ?_, ?_⟩
  · have hlen : ¬ messages.length = 0 := by
      intro h0; exact hne (List.length_eq_zero.1 h0)
    have hlast : messages.getLast? = some (messages.getLast hne) :=
      List.getLast?_eq_getLast messages hne
    have hhist : (if messages.length > 1 then messages.dropLast.map toHistoryEntry else [])
        = messages.dropLast.map toHistoryEntry := by
      by_cases h1 : messages.length > 1
      · rw [if_pos h1]
      · rw [if_neg h1]
        have hl : messages.dropLast.length = 0 := by
          rw [List.length_dropLast]; omega
        rw [List.length_eq_zero.1 hl]; rfl
    simp only [prepareChat, if_neg hlen, hhist, hlast, hspec]
  · rw [hspec]
    exact ⟨_, (stripLeadingModel_eq_drop _).2, (stripLeadingModel_eq_drop _).1⟩
  · rw [hspec]
    exact stripLeadingModel_head _
  · intro msg
    have hassist : isAssistant msg.role = true ↔ msg.role = .str "assistant" := by
      cases hr : msg.role <;> simp [isAssistant]
    have hrole : (toHistoryEntry msg).role
        = if isAssistant msg.role = true then GeminiRole.model else GeminiRole.user := rfl
    by_cases ha : isAssistant msg.role = true
    · have hr := hassist.1 ha
      rw [hrole, if_pos ha]
      exact ⟨⟨fun _ => hr, fun _ => rfl⟩, ⟨fun h => GeminiRole.noConfusion h, fun h => absurd hr h⟩, rfl⟩
    · have hn : msg.role ≠ .str "assistant" := fun h => ha (hassist.2 h)
      rw [hrole, if_neg ha]
      exact ⟨⟨fun h => GeminiRole.noConfusion h, fun h => absurd h hn⟩, ⟨fun _ => hn, fun _ => rfl⟩, rfl⟩
  · intro item items
    rfl
  · intro content hc
    cases content with
    | array items => exact absurd rfl (hc items)
    | _ => rfl

/-- A greeting by the assistant is stripped from the history; the array content of
the second message contributes its element 0. -/
theorem C13_witness :
    prepareChat (some sampleMessages)
      = .ok ([{ role := .user, text := .str "Hi" }], .str "What is a closure?") := by
  have h := (C13_history_preparation sampleMessages (by simp [sampleMessages])).1
  rw [h]
  simp [historySpec, sampleMessages, toHistoryEntry, isAssistant, extractText]

/-! ## The timer display -/

theorem digitChar_decimal (k : Nat) (hk : k < 10) :
    (Nat.digitChar k).isDigit = true ∧ digitValue (Nat.digitChar k) = k := by
  interval_cases k <;> exact ⟨rfl, rfl⟩

theorem readDecimal_concat (cs : List Char) (c : Char) :
    readDecimal (cs ++ [c]) = 10 * readDecimal cs + digitValue c := by
  simp [readDecimal, List.foldl_append]

/-- The digits core `Nat.toDigitsCore 10` puts in front of its accumulator are
decimal digits that denote the number. -/
theorem toDigitsCore_decimal (fuel : Nat) :
    ∀ (n : Nat) (ds : List Char), n < fuel →
      ∃ digits, Nat.toDigitsCore 10 fuel n ds = digits ++ ds ∧
        (∀ c ∈ digits, c.isDigit = true) ∧ readDecimal digits = n := by
  induction fuel with
  | zero => intro n ds h; omega
  | succ fuel ih =>
    intro n ds h
    obtain ⟨hd1, hd2⟩ := digitChar_decimal (n % 10) (Nat.mod_lt n (by decide))
    by_cases h0 : n / 10 = 0
    · refine ⟨[Nat.digitChar (n % 10)], ?_, ?_, ?_⟩
      · simp [Nat.toDigitsCore, h0]
      · intro c hc
        rw [List.mem_singleton.1 hc]; exact hd1
      · have := readDecimal_concat [] (Nat.digitChar (n % 10))
        simp only [List.nil_append] at this
        rw [this, hd2]
        simp only [readDecimal, List.foldl_nil]
        omega
    · obtain ⟨digits, e1, e2, e3⟩ :=
        ih (n / 10) (Nat.digitChar (n % 10) :: ds) (by omega)
      refine ⟨digits ++ [Nat.digitChar (n % 10)], ?_, ?_, ?_⟩
      · simp [Nat.toDigitsCore, h0, e1]
      · intro c hc
        rcases List.mem_append.1 hc with hc | hc
        · exact e2 c hc
        · rw [List.mem_singleton.1 hc]; exact hd1
      · rw [readDecimal_concat, e3, hd2]
        omega

theorem toString_decimal (n : Nat) :
    (∀ c ∈ (toString n).data, c.isDigit = true) ∧ readDecimal (toString n).data = n := by
  obtain ⟨digits, e1, e2, e3⟩ := toDigitsCore_decimal (n + 1) n [] (Nat.lt_succ_self n)
  have hdata : (toString n).data = digits := by
    show (Nat.toDigits 10 n).asString.data = digits
    simp only [Nat.toDigits, e1, List.append_nil, List.asString]
  rw [hdata]
  exact ⟨e2, e3⟩

theorem padTwo_data (n : Nat) :
    (padTwo n).data = if n < 10 then '0' :: (toString n).data else (toString n).data := by
  unfold padTwo
  by_cases h : n < 10
  · rw [if_pos h, if_pos h]; rfl
  · rw [if_neg h, if_neg h]

theorem padTwo_decimal (n : Nat) :
    (∀ c ∈ (padTwo n).data, c.isDigit = true) ∧ readDecimal (padTwo n).data = n := by
  obtain ⟨h1, h2⟩ := toString_decimal n
  rw [padTwo_data]
  by_cases h : n < 10
  · rw [if_pos h]
    refine ⟨?_, ?_⟩
    · intro c hc
      rcases List.mem_cons.1 hc with hc | hc
      · rw [hc]; rfl
      · exact h1 c hc
    · have : readDecimal ('0' :: (toString n).data) = readDecimal (toString n).data := by
        simp [readDecimal, digitValue]
      rw [this, h2]
  · rw [if_neg h]
    exact ⟨h1, h2⟩

theorem padTwo_length_two (n : Nat) (hn : n < 60) : (padTwo n).data.length = 2 := by
  interval_cases n <;> rfl

theorem formatTimer_data (t : Nat) :
    (formatTimer t).data = (padTwo (t / 60)).data ++ ':' :: (padTwo (t % 60)).data := by
  simp [formatTimer, String.data_append]

theorem isDigit_ne_colon (c : Char) (h : c.isDigit = true) : (c != ':') = true := by
  by_cases hc : c = ':'
  · subst hc
    exact absurd h (by decide)
  · simpa using hc

theorem takeWhile_until (p : Char → Bool) (front : List Char) (stop : Char)
    (back : List Char) (hfront : ∀ c ∈ front, p c = true) (hstop : p stop = false) :
    (front ++ stop :: back).takeWhile p = front ∧
      (front ++ stop :: back).dropWhile p = stop :: back := by
  induction front with
  | nil => simp [List.takeWhile_cons, List.dropWhile_cons, hstop]
  | cons c rest ih =>
    have hc := hfront c (List.mem_cons_self c rest)
    obtain ⟨i1, i2⟩ := ih (fun d hd => hfront d (List.mem_cons_of_mem c hd))
    simp [List.takeWhile_cons, List.dropWhile_cons, hc, i1, i2]

theorem readTimer_formatTimer (t : Nat) : readTimer (formatTimer t) = some t := by
  obtain ⟨m1, m2⟩ := padTwo_decimal (t / 60)
  obtain ⟨s1, s2⟩ := padTwo_decimal (t % 60)
  obtain ⟨w1, w2⟩ := takeWhile_until (fun c => c != ':') (padTwo (t / 60)).data ':'
    (padTwo (t % 60)).data (fun c hc => isDigit_ne_colon c (m1 c hc)) (by decide)
  have hm : (padTwo (t / 60)).data.all Char.isDigit = true := List.all_eq_true.2 m1
  have hs : (padTwo (t % 60)).data.all Char.isDigit = true := List.all_eq_true.2 s1
  unfold readTimer
  rw [formatTimer_data]
  simp only [w1, w2, hm, hs, Bool.and_self, if_true, m2, s2]
  congr 1
  exact Nat.div_add_mod t 60

/-- C14: for every non-negative integer `totalSeconds`, `formatTimer` returns
`MM:SS` where `SS` is `totalSeconds mod 60` (a value from 0 to 59) written with
exactly two decimal digits and `MM` is `⌊totalSeconds / 60⌋` written in decimal,
with one zero in front when it is below 10; reading the result back as
`60 · MM + SS` yields `totalSeconds`, so distinct inputs give distinct strings. -/
theorem C14_formatTimer_roundtrip (totalSeconds : Nat) :
    (∃ mm ss : List Char,
      (formatTimer totalSeconds).data = mm ++ ':' :: ss ∧
      ss.length = 2 ∧ (∀ c ∈ ss, c.isDigit = true) ∧
      readDecimal ss = totalSeconds % 60 ∧ totalSeconds % 60 ≤ 59 ∧
      (∀ c ∈ mm, c.isDigit = true) ∧ readDecimal mm = totalSeconds / 60 ∧
      (totalSeconds / 60 < 10 → mm = '0' :: (Nat.repr (totalSeconds / 60)).data) ∧
      (10 ≤ totalSeconds / 60 → mm = (Nat.repr (totalSeconds / 60)).data)) ∧
    readTimer (formatTimer totalSeconds) = some totalSeconds ∧
    (∀ other : Nat, formatTimer other = formatTimer totalSeconds → other = totalSeconds) := by
  have hsec : totalSeconds % 60 < 60 := Nat.mod_lt _ (by decide)
  obtain ⟨m1, m2⟩ := padTwo_decimal (totalSeconds / 60)
  obtain ⟨s1, s2⟩ := padTwo_decimal (totalSeconds % 60)
  refine ⟨⟨(padTwo (totalSeconds / 60)).data, (padTwo (totalSeconds % 60)).data,
    formatTimer_data totalSeconds, padTwo_length_two _ hsec, s1, s2, by omega, m1, m2,
    ?_, ?_⟩, readTimer_formatTimer totalSeconds, ?_⟩
  · intro h
    rw [padTwo_data, if_pos h]; rfl
  · intro h
    rw [padTwo_data, if_neg (by omega)]; rfl
  · intro other h
    have h1 := readTimer_formatTimer other
    rw [h, readTimer_formatTimer totalSeconds] at h1
    exact (Option.some.inj h1).symm

end InterviewRoom
